import Mathlib

/- Verification development for the CADDKit core: the IC50-to-pIC50 potency
conversion, the compound filter engine, the fingerprint encoders, and the
ChEMBL data-request pipeline, shallowly embedded from the Python sources
(`caddkit/utils.py`, `caddkit/filters.py`, `caddkit/fingerprints.py`,
`caddkit/api/chembl.py`, `caddkit/pipelines/chembl_data_request.py`).
Floating-point arithmetic is modelled over the reals (for the logarithm)
and the rationals (for exactly-representable tabular values); raised Python
exceptions are modelled as `Except.error`. -/

namespace CADDKit

/-! ## Potency conversion: `caddkit/utils.py` -/

/-- The `unit_factors` dictionary of `ic50_to_pic50`: conversion factors from
the supported concentration units to molar. -/
noncomputable def unit_factors : List (String × ℝ) :=
  [("nM", 10 ^ (-9 : ℤ)), ("µM", 10 ^ (-6 : ℤ)), ("mM", 10 ^ (-3 : ℤ)), ("M", 1)]

/-- `ic50_to_pic50` from `caddkit/utils.py`: rejects a non-positive IC50 and an
unsupported unit with a `ValueError` (modelled as `Except.error`), otherwise
converts the IC50 to a molar concentration and returns its negative decadic
logarithm. -/
noncomputable def ic50_to_pic50 (ic50 : ℝ) (unit : String) : Except String ℝ :=
  if ic50 ≤ 0 then
    .error "IC50 value must be a positive number."
  else
    match unit_factors.lookup unit with
    | some factor => .ok (-Real.logb 10 (ic50 * factor))
    | none => .error ("Invalid unit " ++ unit ++ ". Supported units are: nM, µM, mM, M.")

lemma log_ten_ne_zero : Real.log 10 ≠ 0 := by
  have h := Real.log_pos (by norm_num : (1 : ℝ) < 10)
  linarith

lemma logb_ten_zpow (n : ℤ) : Real.logb 10 ((10 : ℝ) ^ n) = n := by
  rw [Real.logb, Real.log_zpow, mul_div_assoc, div_self log_ten_ne_zero, mul_one]

lemma neg_logb_mul_factor (x : ℝ) (hx : 0 < x) (n : ℤ) :
    -Real.logb 10 (x * (10 : ℝ) ^ n) = -(n : ℝ) - Real.logb 10 x := by
  rw [Real.logb_mul (ne_of_gt hx) (by positivity), logb_ten_zpow]
  ring

lemma logb_ten_thousand : Real.logb 10 (1000 : ℝ) = 3 := by
  have h : (1000 : ℝ) = (10 : ℝ) ^ (3 : ℤ) := by norm_num
  rw [h, logb_ten_zpow]
  norm_num

/-- C1: for every positive finite IC50 denominated in nanomolar, the potency
conversion returns `9 − log10(ic50)`; it is strictly decreasing in the IC50,
and `convert 1000 = 6`, `convert 1 = 9`. -/
theorem ic50_to_pic50_nM_spec (x y : ℝ) (hx : 0 < x) (hxy : x < y) :
    ic50_to_pic50 x "nM" = .ok (9 - Real.logb 10 x) ∧
    9 - Real.logb 10 y < 9 - Real.logb 10 x ∧
    ic50_to_pic50 1000 "nM" = .ok 6 ∧
    ic50_to_pic50 1 "nM" = .ok 9 := by
  have hlook : unit_factors.lookup "nM" = some ((10 : ℝ) ^ (-9 : ℤ)) := by
    simp [unit_factors, List.lookup]
  have hval : ∀ z : ℝ, 0 < z →
      ic50_to_pic50 z "nM" = .ok (9 - Real.logb 10 z) := by
    intro z hz
    simp only [ic50_to_pic50, if_neg (not_le.mpr hz), hlook, Except.ok.injEq]
    rw [neg_logb_mul_factor z hz (-9)]
    norm_num
  refine ⟨hval x hx, ?_, ?_, ?_⟩
  · have h := Real.logb_lt_logb (b := 10) (by norm_num) hx hxy
    linarith
  · rw [hval 1000 (by norm_num), logb_ten_thousand]
    norm_num
  · rw [hval 1 (by norm_num), Real.logb_one]
    norm_num

/-- Witness for C1 at the concrete inputs x = 1, y = 2. -/
theorem ic50_to_pic50_nM_spec_witness :
    ic50_to_pic50 1 "nM" = .ok (9 - Real.logb 10 1) ∧
    9 - Real.logb 10 2 < 9 - Real.logb 10 1 ∧
    ic50_to_pic50 1000 "nM" = .ok 6 ∧
    ic50_to_pic50 1 "nM" = .ok 9 :=
  ic50_to_pic50_nM_spec 1 2 (by norm_num) (by norm_num)

/-- C10: the potency conversion takes an explicit unit argument; for a positive
IC50 it accepts exactly the four units nM, µM, mM, M with factors 1e-9, 1e-6,
1e-3, 1 and returns `−log10(ic50 · factor)`, and it rejects every other unit
with an error. -/
theorem ic50_to_pic50_unit_spec (x : ℝ) (hx : 0 < x) :
    ic50_to_pic50 x "nM" = .ok (-Real.logb 10 (x * 10 ^ (-9 : ℤ))) ∧
    ic50_to_pic50 x "µM" = .ok (-Real.logb 10 (x * 10 ^ (-6 : ℤ))) ∧
    ic50_to_pic50 x "mM" = .ok (-Real.logb 10 (x * 10 ^ (-3 : ℤ))) ∧
    ic50_to_pic50 x "M" = .ok (-Real.logb 10 (x * 1)) ∧
    ∀ u : String, u ∉ ["nM", "µM", "mM", "M"] →
      ic50_to_pic50 x u =
        .error ("Invalid unit " ++ u ++ ". Supported units are: nM, µM, mM, M.") := by
  have hpos := not_le.mpr hx
  refine ⟨?_, ?_, ?_, ?_, ?_⟩
  · rw [ic50_to_pic50, if_neg hpos]
    simp [unit_factors, List.lookup]
  · rw [ic50_to_pic50, if_neg hpos]
    simp [unit_factors, List.lookup]
  · rw [ic50_to_pic50, if_neg hpos]
    simp [unit_factors, List.lookup]
  · rw [ic50_to_pic50, if_neg hpos]
    simp [unit_factors, List.lookup]
  · intro u hu
    simp only [List.mem_cons, List.not_mem_nil, or_false, not_or] at hu
    obtain ⟨h1, h2, h3, h4⟩ := hu
    have e1 : (u == "nM") = false := beq_eq_false_iff_ne.mpr h1
    have e2 : (u == "µM") = false := beq_eq_false_iff_ne.mpr h2
    have e3 : (u == "mM") = false := beq_eq_false_iff_ne.mpr h3
    have e4 : (u == "M") = false := beq_eq_false_iff_ne.mpr h4
    rw [ic50_to_pic50, if_neg hpos]
    have hlook : unit_factors.lookup u = none := by
      simp [unit_factors, List.lookup, e1, e2, e3, e4]
    rw [hlook]

/-- Witness for C10 at the concrete input x = 5. -/
theorem ic50_to_pic50_unit_spec_witness :
    ic50_to_pic50 5 "nM" = .ok (-Real.logb 10 (5 * 10 ^ (-9 : ℤ))) ∧
    ic50_to_pic50 5 "µM" = .ok (-Real.logb 10 (5 * 10 ^ (-6 : ℤ))) ∧
    ic50_to_pic50 5 "mM" = .ok (-Real.logb 10 (5 * 10 ^ (-3 : ℤ))) ∧
    ic50_to_pic50 5 "M" = .ok (-Real.logb 10 (5 * 1)) ∧
    ∀ u : String, u ∉ ["nM", "µM", "mM", "M"] →
      ic50_to_pic50 5 u =
        .error ("Invalid unit " ++ u ++ ". Supported units are: nM, µM, mM, M.") :=
  ic50_to_pic50_unit_spec 5 (by norm_num)

/-! ## Built-in filter predicates: `caddkit/filters.py`

The RDKit descriptor computations (`Descriptors.ExactMolWt`, `NumHAcceptors`,
`NumHDonors`, `MolLogP`, `HeavyAtomCount`, `NumRotatableBonds`) are external
collaborators; the predicate logic below takes the computed descriptors as
input, exactly as `calculate_ro5_properties` and
`calculate_soft_reos_properties` consume them. -/

/-- The descriptor values computed for one molecule. Counts are naturals as
RDKit returns non-negative integer counts; weight and logP are rationals. -/
structure Descriptors where
  molecular_weight : ℚ
  n_heavy_atoms : ℕ
  n_rotatable_bonds : ℕ
  n_hba : ℕ
  n_hbd : ℕ
  logp : ℚ
deriving DecidableEq, Repr

/-- The `conditions` list of `calculate_ro5_properties`. -/
def ro5_conditions (d : Descriptors) : List Bool :=
  [decide (d.molecular_weight ≤ 500), decide (d.n_hba ≤ 10),
   decide (d.n_hbd ≤ 5), decide (d.logp ≤ 5)]

/-- `sum(conditions) >= 3` of `calculate_ro5_properties`: the `fulfilled`
entry of the returned series. -/
def ro5_fulfilled (d : Descriptors) : Bool :=
  decide (3 ≤ ((ro5_conditions d).map (fun b => if b then (1 : ℕ) else 0)).sum)

/-- The `conditions` list of `calculate_soft_reos_properties` (Python chained
comparisons become conjunctions). -/
def soft_reos_conditions (d : Descriptors) : List Bool :=
  [decide (100 ≤ d.molecular_weight ∧ d.molecular_weight ≤ 700),
   decide (5 ≤ d.n_heavy_atoms ∧ d.n_heavy_atoms ≤ 50),
   decide (0 ≤ d.n_rotatable_bonds ∧ d.n_rotatable_bonds ≤ 12),
   decide (0 ≤ d.n_hbd ∧ d.n_hbd ≤ 5),
   decide (0 ≤ d.n_hba ∧ d.n_hba ≤ 10),
   decide (-5 < d.logp ∧ d.logp < 7.5)]

/-- `all(conditions)` of `calculate_soft_reos_properties`. -/
def soft_reos_fulfilled (d : Descriptors) : Bool :=
  (soft_reos_conditions d).all (fun b => b)

/-- C5: the Rule-of-Five predicate is fulfilled exactly when at least 3 of the
4 conditions (weight ≤ 500, acceptors ≤ 10, donors ≤ 5, logP ≤ 5) hold, and
the Soft REOS predicate is fulfilled exactly when all six bounds
100 ≤ weight ≤ 700, 5 ≤ heavy ≤ 50, 0 ≤ rot ≤ 12, 0 ≤ donors ≤ 5,
0 ≤ acceptors ≤ 10 and −5 < logP < 7.5 hold simultaneously. -/
theorem ro5_soft_reos_fulfilled_iff (d : Descriptors) :
    (ro5_fulfilled d = true ↔
      ((d.molecular_weight ≤ 500 ∧ d.n_hba ≤ 10 ∧ d.n_hbd ≤ 5) ∨
       (d.molecular_weight ≤ 500 ∧ d.n_hba ≤ 10 ∧ d.logp ≤ 5) ∨
       (d.molecular_weight ≤ 500 ∧ d.n_hbd ≤ 5 ∧ d.logp ≤ 5) ∨
       (d.n_hba ≤ 10 ∧ d.n_hbd ≤ 5 ∧ d.logp ≤ 5))) ∧
    (soft_reos_fulfilled d = true ↔
      (100 ≤ d.molecular_weight ∧ d.molecular_weight ≤ 700 ∧
       5 ≤ d.n_heavy_atoms ∧ d.n_heavy_atoms ≤ 50 ∧
       0 ≤ d.n_rotatable_bonds ∧ d.n_rotatable_bonds ≤ 12 ∧
       0 ≤ d.n_hbd ∧ d.n_hbd ≤ 5 ∧
       0 ≤ d.n_hba ∧ d.n_hba ≤ 10 ∧
       -5 < d.logp ∧ d.logp < 7.5)) := by
  constructor
  · rw [ro5_fulfilled, ro5_conditions]
    by_cases h1 : d.molecular_weight ≤ 500 <;>
      by_cases h2 : d.n_hba ≤ 10 <;>
        by_cases h3 : d.n_hbd ≤ 5 <;>
          by_cases h4 : d.logp ≤ 5 <;>
            simp [h1, h2, h3, h4]
  · rw [soft_reos_fulfilled, soft_reos_conditions]
    simp only [List.all_cons, List.all_nil, Bool.and_true, Bool.and_eq_true,
      decide_eq_true_eq]
    tauto

/-! ## The compound filter engine: `CompoundFilter` in `caddkit/filters.py` -/

/-- A tabular cell value (string, numeric, or boolean). -/
inductive Value
  | str (s : String)
  | num (q : ℚ)
  | boolean (b : Bool)
deriving DecidableEq, Repr

/-- A row, as Python sees it after `row.to_dict()`: an insertion-ordered
dictionary from column name to value. -/
abbrev Row := List (String × Value)

/-- Setting one key of a Python dict: the first existing entry keeps its
position and gets the new value; a new key is appended at the end. -/
def dictSet : Row → String → Value → Row
  | [], k, v => [(k, v)]
  | (k0, v0) :: rest, k, v =>
    if k0 = k then (k0, v) :: rest else (k0, v0) :: dictSet rest k v

/-- Python `dict.update`: set every key of `u`, in order. -/
def dictUpdate (d : Row) (u : Row) : Row :=
  u.foldl (fun acc kv => dictSet acc kv.1 kv.2) d

/-- Dictionary lookup (`row[key]`, absent keys give `none`). -/
def dictLookup : Row → String → Option Value
  | [], _ => none
  | (k0, v0) :: rest, k => if k0 = k then some v0 else dictLookup rest k

/-- The value a filter predicate returns (a pandas Series): measured numeric
properties plus the `fulfilled` flag. -/
structure FilterResult where
  props : List (String × ℚ)
  fulfilled : Bool
deriving DecidableEq, Repr

/-- `filter_result.to_dict()`: the measured properties followed by the
`fulfilled` entry, as they appear in the Series index. -/
def FilterResult.toDict (r : FilterResult) : Row :=
  r.props.map (fun p => (p.1, Value.num p.2)) ++ [("fulfilled", Value.boolean r.fulfilled)]

/-- A filter predicate: a callable from a SMILES string to a result, which may
raise (modelled as `Except.error` with the exception message). -/
abbrev FilterPredicate := String → Except String FilterResult

/-- `CompoundFilter`: the two parallel lists kept by `__init__`/`add_filter`. -/
structure CompoundFilter where
  filters : List FilterPredicate
  filter_names : List String

/-- `CompoundFilter.add_filter`: appends the predicate and its name. -/
def CompoundFilter.add_filter (cf : CompoundFilter) (f : FilterPredicate)
    (name : String) : CompoundFilter :=
  { filters := cf.filters ++ [f], filter_names := cf.filter_names ++ [name] }

/-- Outcome of the per-compound predicate loop in `CompoundFilter.process`:
the accumulated `molecule_data` dict, the `violated` flag, the `reasons`
list, and — as the observable of which predicate calls actually happen —
the `trace` of invoked predicate names, in invocation order. -/
structure RowVerdict where
  data : Row
  violated : Bool
  reasons : List String
  trace : List String
deriving DecidableEq, Repr

/-- The inner `for filter_func, name in zip(...)` loop of
`CompoundFilter.process`: on success the result dict is merged into
`molecule_data` and a `fulfilled = False` appends the name to the reasons and
continues; on a raised error the name with the message is appended and the
loop breaks. -/
def runFilters (smiles : String) :
    List (FilterPredicate × String) → Row → RowVerdict
  | [], data => { data := data, violated := false, reasons := [], trace := [] }
  | (f, name) :: rest, data =>
    match f smiles with
    | .error e =>
      { data := data, violated := true, reasons := [name ++ ": " ++ e], trace := [name] }
    | .ok r =>
      let out := runFilters smiles rest (dictUpdate data r.toDict)
      if r.fulfilled then
        { out with trace := name :: out.trace }
      else
        { data := out.data, violated := true, reasons := name :: out.reasons,
          trace := name :: out.trace }

/-- Python `", ".join(reasons)`. -/
def joinReasons : List String → String
  | [] => ""
  | [a] => a
  | a :: b :: rest => a ++ ", " ++ joinReasons (b :: rest)

/-- A DataFrame: column names plus rows. -/
structure DF where
  cols : List String
  rows : List Row

/-- `df[cols]`: per-row projection onto the given columns, in order. -/
def projRow (cols : List String) (r : Row) : Row :=
  cols.map (fun c => (c, (dictLookup r c).getD (Value.str "")))

/-- `row[smiles_column]` read as a string. -/
def getSmiles (r : Row) (c : String) : String :=
  match dictLookup r c with
  | some (Value.str s) => s
  | _ => ""

/-- `CompoundFilter.process`: checks the SMILES column, runs the predicate
loop per row, stores the `violated` flag and joined `violation_reason` into
the result dict, selects by the `violated` flag and projects the passed rows
onto the original columns and the violated rows onto the original columns
plus `violation_reason`. `pd.DataFrame(results)` of an empty results list —
which happens exactly when the input frame has no rows — has no columns at
all, so the selection `result_df[result_df["violated"] == False]` raises
`KeyError` on the empty input. -/
def CompoundFilter.process (cf : CompoundFilter) (df : DF) (smiles_column : String) :
    Except String (List Row × List Row) :=
  if smiles_column ∉ df.cols then
    .error ("The specified SMILES column " ++ smiles_column ++ " is not in the DataFrame.")
  else
    let pairs := cf.filters.zip cf.filter_names
    let results := df.rows.map (fun row =>
      let v := runFilters (getSmiles row smiles_column) pairs row
      (dictSet (dictSet v.data "violated" (Value.boolean v.violated))
         "violation_reason" (Value.str (joinReasons v.reasons)), v.violated))
    if results.isEmpty then
      .error "KeyError: violated"
    else
      let filtered_df := (results.filter (fun t => !t.2)).map
        (fun t => projRow df.cols t.1)
      let violated_df := (results.filter (fun t => t.2)).map
        (fun t => projRow (df.cols ++ ["violation_reason"]) t.1)
      .ok (filtered_df, violated_df)

/-! ### Dictionary and projection lemmas -/

lemma dictLookup_dictSet_self (d : Row) (k : String) (v : Value) :
    dictLookup (dictSet d k v) k = some v := by
  induction d with
  | nil => simp [dictSet, dictLookup]
  | cons a rest ih =>
    obtain ⟨k0, v0⟩ := a
    by_cases h : k0 = k <;> simp [dictSet, dictLookup, h, ih]

lemma dictLookup_dictSet_ne (d : Row) (k : String) (v : Value) (k2 : String)
    (h : k2 ≠ k) : dictLookup (dictSet d k v) k2 = dictLookup d k2 := by
  have h' : ¬k = k2 := fun hh => h hh.symm
  induction d with
  | nil => simp [dictSet, dictLookup, h']
  | cons a rest ih =>
    obtain ⟨k0, v0⟩ := a
    by_cases h0 : k0 = k
    · subst h0
      simp [dictSet, dictLookup, h']
    · simp [dictSet, dictLookup, h0, ih]

lemma dictUpdate_nil (d : Row) : dictUpdate d [] = d := rfl

lemma dictUpdate_cons (d : Row) (a : String × Value) (u : Row) :
    dictUpdate d (a :: u) = dictUpdate (dictSet d a.1 a.2) u := rfl

lemma dictLookup_dictUpdate_not_mem (u : Row) (k : String)
    (h : k ∉ u.map Prod.fst) :
    ∀ d, dictLookup (dictUpdate d u) k = dictLookup d k := by
  induction u with
  | nil => intro d; rfl
  | cons a u ih =>
    intro d
    simp only [List.map_cons, List.mem_cons, not_or] at h
    rw [dictUpdate_cons, ih h.2, dictLookup_dictSet_ne _ _ _ _ h.1]

lemma dictLookup_eq_none_of_not_mem (d : Row) (k : String)
    (h : k ∉ d.map Prod.fst) : dictLookup d k = none := by
  induction d with
  | nil => rfl
  | cons a rest ih =>
    obtain ⟨k0, v0⟩ := a
    simp only [List.map_cons, List.mem_cons, not_or] at h
    have h1 : ¬k0 = k := fun hh => h.1 hh.symm
    simp only [dictLookup, if_neg h1]
    exact ih h.2

lemma dictLookup_append_of_not_mem (d l2 : Row) (k : String)
    (h : k ∉ d.map Prod.fst) : dictLookup (d ++ l2) k = dictLookup l2 k := by
  induction d with
  | nil => rfl
  | cons a rest ih =>
    obtain ⟨k0, v0⟩ := a
    simp only [List.map_cons, List.mem_cons, not_or] at h
    have h1 : ¬k0 = k := fun hh => h.1 hh.symm
    simp only [List.cons_append, dictLookup, if_neg h1]
    exact ih h.2

lemma projRow_append (a b : List String) (r : Row) :
    projRow (a ++ b) r = projRow a r ++ projRow b r := by
  simp [projRow]

lemma projRow_congr (cols : List String) (r r2 : Row)
    (h : ∀ c ∈ cols, dictLookup r c = dictLookup r2 c) :
    projRow cols r = projRow cols r2 :=
  List.map_congr_left fun c hc => by rw [h c hc]

lemma projRow_eq_self (r : Row) :
    ∀ cols, r.map Prod.fst = cols → cols.Nodup → projRow cols r = r := by
  induction r with
  | nil =>
    intro cols hk _
    rw [← hk]
    rfl
  | cons a r2 ih =>
    intro cols hk hnd
    obtain ⟨c, v⟩ := a
    rw [← hk] at hnd ⊢
    simp only [List.map_cons, List.nodup_cons] at hnd
    have hhead : dictLookup ((c, v) :: r2) c = some v := by simp [dictLookup]
    have htail : projRow (r2.map Prod.fst) ((c, v) :: r2) = projRow (r2.map Prod.fst) r2 := by
      refine projRow_congr _ _ _ (fun c2 hc2 => ?_)
      have hne : c ≠ c2 := fun hh => hnd.1 (hh ▸ hc2)
      simp [dictLookup, hne]
    simp only [List.map_cons, projRow, List.map_cons] at *
    rw [hhead]
    simp only [Option.getD_some, List.cons.injEq, true_and]
    have := htail
    simp only [projRow] at this
    rw [this]
    have h2 := ih (r2.map Prod.fst) rfl hnd.2
    simpa [projRow] using h2

/-! ### Predicate loop lemmas -/

lemma runFilters_data_lookup (smiles : String) (c : String) :
    ∀ (pairs : List (FilterPredicate × String)),
      (∀ fp ∈ pairs, ∀ s r, fp.1 s = Except.ok r → c ∉ r.toDict.map Prod.fst) →
      ∀ data, dictLookup (runFilters smiles pairs data).data c = dictLookup data c := by
  intro pairs
  induction pairs with
  | nil => intro _ data; rfl
  | cons fp rest ih =>
    intro hd data
    obtain ⟨f, name⟩ := fp
    have hrest := fun fp hfp => hd fp (List.mem_cons_of_mem _ hfp)
    cases hfs : f smiles with
    | error e => simp [runFilters, hfs]
    | ok r =>
      have hkeys : c ∉ r.toDict.map Prod.fst :=
        hd (f, name) (List.mem_cons_self _ _) smiles r hfs
      cases hful : r.fulfilled <;>
        simp [runFilters, hfs, hful, ih hrest _,
          dictLookup_dictUpdate_not_mem _ _ hkeys]

lemma runFilters_reasons_ne (smiles : String) :
    ∀ (pairs : List (FilterPredicate × String)),
      (∀ n ∈ pairs.map Prod.snd, n ≠ "") →
      ∀ data s, s ∈ (runFilters smiles pairs data).reasons → s ≠ "" := by
  intro pairs
  induction pairs with
  | nil => intro _ data s hs; simp [runFilters] at hs
  | cons fp rest ih =>
    intro hn data s hs
    obtain ⟨f, name⟩ := fp
    simp only [List.map_cons, List.mem_cons, forall_eq_or_imp] at hn
    cases hfs : f smiles with
    | error e =>
      simp only [runFilters, hfs] at hs
      simp only [List.mem_singleton] at hs
      subst hs
      intro hcon
      have hlen := congrArg String.length hcon
      have h2 : (": " : String).length = 2 := rfl
      simp [String.length_append, h2] at hlen
    | ok r =>
      cases hful : r.fulfilled
      · simp only [runFilters, hfs, hful] at hs
        rcases List.mem_cons.mp hs with hs | hs
        · subst hs; exact hn.1
        · exact ih hn.2 _ s hs
      · simp only [runFilters, hfs, hful] at hs
        exact ih hn.2 _ s hs

lemma runFilters_violated_iff (smiles : String) :
    ∀ (pairs : List (FilterPredicate × String)) data,
      ((runFilters smiles pairs data).violated = true ↔
        (runFilters smiles pairs data).reasons ≠ []) := by
  intro pairs
  induction pairs with
  | nil => intro data; simp [runFilters]
  | cons fp rest ih =>
    intro data
    obtain ⟨f, name⟩ := fp
    cases hfs : f smiles with
    | error e => simp [runFilters, hfs]
    | ok r =>
      cases hful : r.fulfilled <;> simp [runFilters, hfs, hful, ih]

lemma joinReasons_ne_empty :
    ∀ l : List String, l ≠ [] → (∀ s ∈ l, s ≠ "") → joinReasons l ≠ "" := by
  intro l
  match l with
  | [] => intro h _; exact absurd rfl h
  | [a] => intro _ h; simpa [joinReasons] using h a (by simp)
  | a :: b :: rest =>
    intro _ _ hcon
    have hlen := congrArg String.length hcon
    have h2 : (", " : String).length = 2 := rfl
    simp [joinReasons, String.length_append, h2] at hlen

lemma filter_of_map {α β : Type _} (f : α → β) (p : β → Bool) (l : List α) :
    (l.map f).filter p = (l.filter (fun a => p (f a))).map f := by
  induction l with
  | nil => rfl
  | cons a l ih =>
    by_cases h : p (f a) <;> simp [List.filter_cons, h, ih]

lemma isEmpty_map_eq_false {α β : Type _} (f : α → β) (l : List α) (h : l ≠ []) :
    (l.map f).isEmpty = false := by
  cases l with
  | nil => exact absurd rfl h
  | cons a t => rfl

/-- C3: the per-compound predicate loop of `CompoundFilter.process` evaluates
predicates in registration order (the trace records the head predicate before
any of the rest). When a predicate raises, the predicate name with the error
message becomes the recorded reason and the loop stops: the outcome is
independent of the remaining predicates and the trace ends at the raising
predicate. When a predicate returns `fulfilled = false`, its name is recorded
as a reason and evaluation continues with the next predicate. -/
theorem runFilters_order_spec (f : FilterPredicate) (name : String)
    (rest : List (FilterPredicate × String)) (smiles : String) (data : Row) :
    (∀ e, f smiles = .error e →
      runFilters smiles ((f, name) :: rest) data =
        { data := data, violated := true, reasons := [name ++ ": " ++ e],
          trace := [name] }) ∧
    (∀ r, f smiles = .ok r → r.fulfilled = false →
      runFilters smiles ((f, name) :: rest) data =
        { data := (runFilters smiles rest (dictUpdate data r.toDict)).data,
          violated := true,
          reasons := name :: (runFilters smiles rest (dictUpdate data r.toDict)).reasons,
          trace := name :: (runFilters smiles rest (dictUpdate data r.toDict)).trace }) ∧
    (∀ r, f smiles = .ok r → r.fulfilled = true →
      runFilters smiles ((f, name) :: rest) data =
        { runFilters smiles rest (dictUpdate data r.toDict) with
          trace := name :: (runFilters smiles rest (dictUpdate data r.toDict)).trace }) := by
  refine ⟨?_, ?_, ?_⟩
  · intro e he
    simp [runFilters, he]
  · intro r hr hf
    simp [runFilters, hr, hf]
  · intro r hr hf
    simp [runFilters, hr, hf]

/-- Witness for C3: a raising predicate named A short-circuits past a later
predicate B; a `fulfilled = false` predicate records its name and the loop
goes on. -/
theorem runFilters_order_spec_witness :
    runFilters "CCO"
        [((fun _ => .error "boom" : FilterPredicate), "A"),
         ((fun _ => .ok { props := [], fulfilled := true } : FilterPredicate), "B")] [] =
      { data := [], violated := true, reasons := ["A: boom"], trace := ["A"] } ∧
    runFilters "CCO"
        [((fun _ => .ok { props := [("mw", 10)], fulfilled := false } : FilterPredicate), "A")] [] =
      { data := (runFilters "CCO" []
            (dictUpdate [] (FilterResult.toDict { props := [("mw", 10)], fulfilled := false }))).data,
        violated := true,
        reasons := "A" :: (runFilters "CCO" []
            (dictUpdate [] (FilterResult.toDict { props := [("mw", 10)], fulfilled := false }))).reasons,
        trace := "A" :: (runFilters "CCO" []
            (dictUpdate [] (FilterResult.toDict { props := [("mw", 10)], fulfilled := false }))).trace } ∧
    runFilters "CCO"
        [((fun _ => .ok { props := [], fulfilled := true } : FilterPredicate), "A")] [] =
      { runFilters "CCO" [] (dictUpdate [] (FilterResult.toDict { props := [], fulfilled := true })) with
        trace := "A" :: (runFilters "CCO" []
            (dictUpdate [] (FilterResult.toDict { props := [], fulfilled := true }))).trace } :=
  ⟨(runFilters_order_spec (fun _ => .error "boom") "A"
      [((fun _ => .ok { props := [], fulfilled := true } : FilterPredicate), "B")] "CCO" []).1
      "boom" rfl,
   (runFilters_order_spec (fun _ => .ok { props := [("mw", 10)], fulfilled := false }) "A"
      [] "CCO" []).2.1 { props := [("mw", 10)], fulfilled := false } rfl rfl,
   (runFilters_order_spec (fun _ => .ok { props := [], fulfilled := true }) "A"
      [] "CCO" []).2.2 { props := [], fulfilled := true } rfl rfl⟩

/-- C4 (amended): provided the input compound set is non-empty (on an empty
input `process` raises `KeyError` instead, the empty result frame having no
`violated` column), the registered predicate names are non-empty, and
neither the predicate result keys nor the bookkeeping columns `violated` and
`violation_reason` collide with the input columns, `process` partitions any
well-formed compound set into two disjoint row sets whose sizes sum to the
input size and whose union, restricted to the original input columns, equals
the input; every violated row carries a non-empty violation-reason string and
no passed row carries one. -/
theorem process_partition_spec (cf : CompoundFilter) (df : DF) (sc : String)
    (hne : df.rows ≠ [])
    (hsc : sc ∈ df.cols)
    (hnodup : df.cols.Nodup)
    (hwf : ∀ r ∈ df.rows, r.map Prod.fst = df.cols)
    (hnames : ∀ n ∈ cf.filter_names, n ≠ "")
    (hv : "violated" ∉ df.cols)
    (hvr : "violation_reason" ∉ df.cols)
    (hdisj : ∀ p ∈ cf.filters, ∀ s r, p s = Except.ok r →
      ∀ k ∈ r.toDict.map Prod.fst, k ∉ df.cols) :
    ∃ passed violated,
      cf.process df sc = .ok (passed, violated) ∧
      passed.length + violated.length = df.rows.length ∧
      (passed ++ violated.map List.dropLast).Perm df.rows ∧
      (∀ r ∈ passed, r ∉ violated.map List.dropLast) ∧
      (∀ r ∈ violated, ∃ s, dictLookup r "violation_reason" = some (Value.str s) ∧ s ≠ "") ∧
      (∀ r ∈ passed, dictLookup r "violation_reason" = none) := by
  classical
  set pairs := cf.filters.zip cf.filter_names with hpairs
  set flag : Row → Bool := fun row => (runFilters (getSmiles row sc) pairs row).violated
    with hflag
  set rsn : Row → String := fun row =>
    joinReasons (runFilters (getSmiles row sc) pairs row).reasons with hrsn
  set d2 : Row → Row := fun row =>
    dictSet (dictSet (runFilters (getSmiles row sc) pairs row).data "violated"
      (Value.boolean (flag row))) "violation_reason" (Value.str (rsn row)) with hd2
  have hrowlk : ∀ row ∈ df.rows, ∀ c ∈ df.cols, dictLookup (d2 row) c = dictLookup row c := by
    intro row hrow c hc
    have hcvr : c ≠ "violation_reason" := fun h => hvr (h ▸ hc)
    have hcv : c ≠ "violated" := fun h => hv (h ▸ hc)
    rw [hd2]
    simp only
    rw [dictLookup_dictSet_ne _ _ _ _ hcvr, dictLookup_dictSet_ne _ _ _ _ hcv]
    refine runFilters_data_lookup (getSmiles row sc) c pairs ?_ row
    intro fp hfp s r hok hck
    obtain ⟨f1, n1⟩ := fp
    exact hdisj f1 (List.of_mem_zip hfp).1 s r hok c hck hc
  have hrowproj : ∀ row ∈ df.rows, projRow df.cols (d2 row) = row := by
    intro row hrow
    calc projRow df.cols (d2 row) = projRow df.cols row :=
          projRow_congr _ _ _ (hrowlk row hrow)
      _ = row := projRow_eq_self row df.cols (hwf row hrow) hnodup
  have hvrowproj : ∀ row ∈ df.rows,
      projRow (df.cols ++ ["violation_reason"]) (d2 row) =
        row ++ [("violation_reason", Value.str (rsn row))] := by
    intro row hrow
    rw [projRow_append, hrowproj row hrow]
    congr 1
    have hlk2 : dictLookup (d2 row) "violation_reason" = some (Value.str (rsn row)) := by
      rw [hd2]
      simp only
      exact dictLookup_dictSet_self _ _ _
    simp [projRow, hlk2]
  have hproc : cf.process df sc = .ok
      (df.rows.filter (fun row => !flag row),
       (df.rows.filter flag).map
         (fun row => row ++ [("violation_reason", Value.str (rsn row))])) := by
    rw [CompoundFilter.process, if_neg (fun h => h hsc)]
    simp only [← hpairs, ← hflag, ← hrsn]
    rw [isEmpty_map_eq_false _ df.rows hne]
    simp only [Bool.false_eq_true, if_false]
    rw [filter_of_map, filter_of_map, List.map_map, List.map_map]
    simp only [Function.comp]
    congr 1
    congr 1
    · refine (List.map_congr_left ?_).trans (List.map_id _)
      intro row hrow
      exact hrowproj row (List.mem_filter.mp hrow).1
    · refine List.map_congr_left ?_
      intro row hrow
      exact hvrowproj row (List.mem_filter.mp hrow).1
  have hperm0 := List.filter_append_perm flag df.rows
  have hnotnot : (fun x => !flag x) = fun x => !(flag x) := rfl
  refine ⟨df.rows.filter (fun row => !flag row),
    (df.rows.filter flag).map
      (fun row => row ++ [("violation_reason", Value.str (rsn row))]),
    hproc, ?_, ?_, ?_, ?_, ?_⟩
  · have := hperm0.length_eq
    simp only [List.length_append] at this
    simp only [List.length_map]
    omega
  · have hdrop : ((df.rows.filter flag).map
        (fun row => row ++ [("violation_reason", Value.str (rsn row))])).map List.dropLast
        = df.rows.filter flag := by
      rw [List.map_map]
      refine (List.map_congr_left ?_).trans (List.map_id _)
      intro row _
      simp [List.dropLast_concat]
    rw [hdrop]
    exact (List.perm_append_comm).trans hperm0
  · intro r hr hmem
    have hdrop : ((df.rows.filter flag).map
        (fun row => row ++ [("violation_reason", Value.str (rsn row))])).map List.dropLast
        = df.rows.filter flag := by
      rw [List.map_map]
      refine (List.map_congr_left ?_).trans (List.map_id _)
      intro row _
      simp [List.dropLast_concat]
    rw [hdrop] at hmem
    have h1 := (List.mem_filter.mp hr).2
    have h2 := (List.mem_filter.mp hmem).2
    simp only [Bool.not_eq_true'] at h1
    rw [h1] at h2
    exact Bool.false_ne_true h2
  · intro r hr
    obtain ⟨row, hrowmem, hreq⟩ := List.mem_map.mp hr
    have hrowin := (List.mem_filter.mp hrowmem).1
    have hflagrow := (List.mem_filter.mp hrowmem).2
    refine ⟨rsn row, ?_, ?_⟩
    · rw [← hreq]
      rw [dictLookup_append_of_not_mem _ _ _ (by rw [hwf row hrowin]; exact hvr)]
      simp [dictLookup]
    · rw [hrsn]
      simp only
      refine joinReasons_ne_empty _ ?_ ?_
      · exact (runFilters_violated_iff (getSmiles row sc) pairs row).mp hflagrow
      · intro s hs
        refine runFilters_reasons_ne (getSmiles row sc) pairs ?_ row s hs
        intro n hn
        obtain ⟨pr, hpr, hpreq⟩ := List.mem_map.mp hn
        obtain ⟨f1, n1⟩ := pr
        exact hpreq ▸ hnames n1 (List.of_mem_zip hpr).2
  · intro r hr
    have hrin := (List.mem_filter.mp hr).1
    exact dictLookup_eq_none_of_not_mem _ _ (by rw [hwf r hrin]; exact hvr)

/-- Witness for C4 (amended) on a one-row compound set with one well-named
predicate. -/
theorem process_partition_spec_witness :
    ∃ passed violated,
      CompoundFilter.process
          ⟨[fun _ => .ok ⟨[("mw", 10)], false⟩], ["A"]⟩
          ⟨["smiles"], [[("smiles", Value.str "CCO")]]⟩ "smiles" = .ok (passed, violated) ∧
      passed.length + violated.length = [[("smiles", Value.str "CCO")]].length ∧
      (passed ++ violated.map List.dropLast).Perm [[("smiles", Value.str "CCO")]] ∧
      (∀ r ∈ passed, r ∉ violated.map List.dropLast) ∧
      (∀ r ∈ violated, ∃ s, dictLookup r "violation_reason" = some (Value.str s) ∧ s ≠ "") ∧
      (∀ r ∈ passed, dictLookup r "violation_reason" = none) :=
  process_partition_spec
    ⟨[fun _ => .ok ⟨[("mw", 10)], false⟩], ["A"]⟩
    ⟨["smiles"], [[("smiles", Value.str "CCO")]]⟩ "smiles"
    (by decide) (by simp) (by simp) (by decide) (by decide) (by decide) (by decide)
    (by
      intro p hp s r hok
      simp only [List.mem_singleton] at hp
      subst hp
      cases hok
      decide)

/-- C4 counterexample: with a predicate registered under the empty name whose
reported property key collides with an input column, the single violated row
carries the empty violation-reason string, and the union of the two outputs
restricted to the original columns is not the input (the collided column
value changed); moreover on the empty compound set `process` raises
`KeyError` instead of returning two sets — so the claim as stated fails. -/
theorem process_partition_counterexample :
    CompoundFilter.process
        ⟨[fun _ => .ok ⟨[("p", 0)], false⟩], [""]⟩
        ⟨["smiles", "p"], [[("smiles", Value.str "CCO"), ("p", Value.num 1)]]⟩ "smiles" =
      .ok ([], [[("smiles", Value.str "CCO"), ("p", Value.num 0),
                 ("violation_reason", Value.str "")]]) ∧
    dictLookup [("smiles", Value.str "CCO"), ("p", Value.num 0),
        ("violation_reason", Value.str "")] "violation_reason" = some (Value.str "") ∧
    ¬ (([] ++ [[("smiles", Value.str "CCO"), ("p", Value.num 0),
          ("violation_reason", Value.str "")]].map List.dropLast).Perm
        [[("smiles", Value.str "CCO"), ("p", Value.num 1)]]) ∧
    CompoundFilter.process
        ⟨[fun _ => .ok ⟨[("p", 0)], false⟩], [""]⟩
        ⟨["smiles", "p"], []⟩ "smiles" = .error "KeyError: violated" := by
  refine ⟨rfl, by decide, by decide, rfl⟩

/-! ## Fingerprint encoders: `caddkit/fingerprints.py`

`Chem.MolFromSmiles` and the RDKit fingerprint generators are external
collaborators, passed as parameters; the fallback logic on an unparseable
SMILES is the module's own. -/

section Fingerprints

variable {Mol : Type}

/-- `calculate_morgan_fingerprint_as_bit_vect(smiles, radius=2, nBits=1024)`:
on a parsed molecule calls `AllChem.GetMorganFingerprintAsBitVect` with the
given radius and bit length, otherwise returns `np.zeros(nBits)`. -/
def calculate_morgan_fingerprint_as_bit_vect
    (MolFromSmiles : String → Option Mol)
    (getMorganBits : ℕ → ℕ → Mol → List ℚ)
    (smiles : String) (radius : ℕ := 2) (nBits : ℕ := 1024) : List ℚ :=
  match MolFromSmiles smiles with
  | some mol => getMorganBits radius nBits mol
  | none => List.replicate nBits 0

/-- `calculate_ap_fingerprint_as_bit_vect(smiles)`: hashed atom-pair encoding
with nBits=2048, `np.zeros(2048)` on an unparseable SMILES. -/
def calculate_ap_fingerprint_as_bit_vect
    (MolFromSmiles : String → Option Mol)
    (getAPBits : ℕ → Mol → List ℚ)
    (smiles : String) : List ℚ :=
  match MolFromSmiles smiles with
  | some mol => getAPBits 2048 mol
  | none => List.replicate 2048 0

/-- `calculate_maccs_fingerprint_as_bit_vect(smiles)`: the fixed 167-key MACCS
encoding, `np.zeros(167)` on an unparseable SMILES. -/
def calculate_maccs_fingerprint_as_bit_vect
    (MolFromSmiles : String → Option Mol)
    (genMACCSKeys : Mol → List ℚ)
    (smiles : String) : List ℚ :=
  match MolFromSmiles smiles with
  | some mol => genMACCSKeys mol
  | none => List.replicate 167 0

/-- `calculate_morgan2_fingerprint_as_bit_vect(smiles, n_bits=2048)`: on a
parsed molecule builds a radius-2 Morgan generator with `fpSize=n_bits` and
returns its count fingerprint, but on an unparseable SMILES returns
`np.zeros(2048)` with the length hardcoded, ignoring `n_bits`. -/
def calculate_morgan2_fingerprint_as_bit_vect
    (MolFromSmiles : String → Option Mol)
    (morganCountFP : ℕ → ℕ → Mol → List ℚ)
    (smiles : String) (n_bits : ℕ := 2048) : List ℚ :=
  match MolFromSmiles smiles with
  | some mol => morganCountFP 2 n_bits mol
  | none => List.replicate 2048 0

/-- `calculate_morgan3_fingerprint_as_bit_vect(smiles, n_bits=2048)`: as the
radius-2 variant, with the same hardcoded `np.zeros(2048)` fallback. -/
def calculate_morgan3_fingerprint_as_bit_vect
    (MolFromSmiles : String → Option Mol)
    (morganCountFP : ℕ → ℕ → Mol → List ℚ)
    (smiles : String) (n_bits : ℕ := 2048) : List ℚ :=
  match MolFromSmiles smiles with
  | some mol => morganCountFP 3 n_bits mol
  | none => List.replicate 2048 0

/-- C6: the radius-parameterized Morgan bit encoder honours its declared
length on the unparseable branch, but `calculate_morgan2_fingerprint_as_bit_vect`
with `n_bits = 1024` returns a zero vector of the hardcoded length 2048 on an
unparseable SMILES while returning a vector of the declared length 1024 on a
valid one — the invalid-input vector length differs from the scheme's declared
output length, refuting the claim for this scheme (code bug: `np.zeros(2048)`
should be `np.zeros(n_bits)`). -/
theorem morgan2_invalid_length_bug
    (MolFromSmiles : String → Option Mol)
    (getMorganBits : ℕ → ℕ → Mol → List ℚ)
    (morganCountFP : ℕ → ℕ → Mol → List ℚ)
    (hlen : ∀ radius n mol, (morganCountFP radius n mol).length = n)
    (bad good : String) (hbad : MolFromSmiles bad = none) (m : Mol)
    (hgood : MolFromSmiles good = some m) :
    calculate_morgan_fingerprint_as_bit_vect MolFromSmiles getMorganBits bad 2 1024 =
      List.replicate 1024 0 ∧
    calculate_morgan2_fingerprint_as_bit_vect MolFromSmiles morganCountFP bad 1024 =
      List.replicate 2048 0 ∧
    (calculate_morgan2_fingerprint_as_bit_vect MolFromSmiles morganCountFP bad 1024).length ≠
      (calculate_morgan2_fingerprint_as_bit_vect MolFromSmiles morganCountFP good 1024).length := by
  refine ⟨?_, ?_, ?_⟩
  · rw [calculate_morgan_fingerprint_as_bit_vect, hbad]
  · rw [calculate_morgan2_fingerprint_as_bit_vect, hbad]
  · rw [calculate_morgan2_fingerprint_as_bit_vect, hbad,
      calculate_morgan2_fingerprint_as_bit_vect, hgood]
    rw [List.length_replicate, hlen 2 1024 m]
    decide

/-- Witness for C6 with a concrete parse oracle and generator. -/
theorem morgan2_invalid_length_bug_witness :
    calculate_morgan_fingerprint_as_bit_vect
        ((fun s => if s = "C" then some () else none) : String → Option Unit)
        (fun _ n _ => List.replicate n 0) "x" 2 1024 = List.replicate 1024 0 ∧
    calculate_morgan2_fingerprint_as_bit_vect
        ((fun s => if s = "C" then some () else none) : String → Option Unit)
        (fun _ n _ => List.replicate n 0) "x" 1024 = List.replicate 2048 0 ∧
    (calculate_morgan2_fingerprint_as_bit_vect
        ((fun s => if s = "C" then some () else none) : String → Option Unit)
        (fun _ n _ => List.replicate n 0) "x" 1024).length ≠
      (calculate_morgan2_fingerprint_as_bit_vect
        ((fun s => if s = "C" then some () else none) : String → Option Unit)
        (fun _ n _ => List.replicate n 0) "C" 1024).length :=
  morgan2_invalid_length_bug
    (fun s => if s = "C" then some () else none)
    (fun _ n _ => List.replicate n 0)
    (fun _ n _ => List.replicate n 0)
    (fun _ _ _ => List.length_replicate _ _)
    "x" "C" (by decide) () (by decide)

end Fingerprints

/-! ## ChEMBL API wrappers (`caddkit/api/chembl.py`) and the data-request
pipeline (`caddkit/pipelines/chembl_data_request.py`)

The remote ChEMBL registry is an external collaborator, modelled as the row
sets it returns (target rows for the pipeline's UniProt id, the activity
table, the molecule table). Raised exceptions are `Except.error` carrying the
message; every pipeline stage re-wraps errors as `RuntimeError: Error ...`,
and `run` catches everything and returns an empty frame. -/

/-- A target row (`.only` fields of the target API). -/
structure TargetRecord where
  target_chembl_id : String
  organism : String
  pref_name : String
  target_type : String
deriving DecidableEq, Repr

/-- `get_chembl_targets_by_uniprot`: on an empty registry result the function
raises `ValueError` internally, catches it itself, prints the message (the
second component) and returns an empty frame. -/
def get_chembl_targets_by_uniprot (uniprot_id : String)
    (registry_rows : List TargetRecord) : List TargetRecord × List String :=
  if registry_rows.isEmpty then
    ([], ["ValueError: No targets found for UniProt ID: " ++ uniprot_id])
  else (registry_rows, [])

/-- `get_chembl_id_by_uniprot`: `targets.iloc[loc]` out of bounds raises
`IndexError`, caught and turned into `None`. -/
def get_chembl_id_by_uniprot (uniprot_id : String)
    (registry_rows : List TargetRecord) (loc : ℕ := 0) : Option String :=
  ((get_chembl_targets_by_uniprot uniprot_id registry_rows).1.get? loc).map
    (fun t => t.target_chembl_id)

/-- A raw tabular cell of the bioactivity value column: a numeric value, a
null, or non-numeric text that fails floating-point coercion. -/
inductive RawVal
  | fl (q : ℚ)
  | na
  | bad (s : String)
deriving DecidableEq, Repr

/-- One raw activity row (the fields the pipeline logic reads; the remaining
`.only` fields never influence any step). -/
structure ActivityRecord where
  molecule_chembl_id : String
  standard_value : RawVal
  standard_units : String
  target_chembl_id : String
deriving DecidableEq, Repr

/-- A bioactivity frame: columns plus rows. -/
structure BioDF where
  cols : List String
  rows : List ActivityRecord
deriving DecidableEq, Repr

/-- Columns of a non-empty raw bioactivity frame: the `.only` fields plus the
legacy `units`/`value` pair the client also returns. -/
def rawBioCols : List String :=
  ["activity_id", "assay_chembl_id", "assay_description", "assay_type",
   "molecule_chembl_id", "type", "standard_units", "relation",
   "standard_value", "target_chembl_id", "target_organism", "units", "value"]

/-- `query_chembl_bioactivity`: filters the external activity table by the
target ChEMBL id (a missing id matches nothing; any client error is caught
and yields the same empty frame); `pd.DataFrame.from_dict` of an empty
result has no columns. -/
def query_chembl_bioactivity (activityDb : List ActivityRecord)
    (chembl_id : Option String) : BioDF :=
  let rows := match chembl_id with
    | none => []
    | some t => activityDb.filter (fun a => a.target_chembl_id == t)
  { cols := if rows.isEmpty then [] else rawBioCols, rows := rows }

/-- A cleaned bioactivity row after `process_bioactivity_data`. -/
structure CleanBioRow where
  molecule_chembl_id : String
  IC50 : ℚ
  units : String
deriving DecidableEq, Repr

/-- The cleaned bioactivity frame. -/
structure CleanBioDF where
  cols : List String
  rows : List CleanBioRow
deriving DecidableEq, Repr

/-- One cell of `astype(\x7b"standard_value": "float64"\x7d)`: numeric cells
convert, nulls become NaN, non-numeric text raises `ValueError`. -/
def astypeFloat : RawVal → Except String (Option ℚ)
  | .fl q => .ok (some q)
  | .na => .ok none
  | .bad s => .error ("could not convert string to float: " ++ s)

/-- The column-wide `astype` on `standard_value`: the first non-coercible
cell raises; otherwise every row keeps its (possibly null) float value. -/
def astypeRows : List ActivityRecord → Except String (List (String × Option ℚ × String))
  | [] => .ok []
  | a :: rest =>
    match astypeFloat a.standard_value with
    | .ok v => (astypeRows rest).map (fun rs => (a.molecule_chembl_id, v, a.standard_units) :: rs)
    | .error e => .error ("Error processing bioactivity data: " ++ e)

/-- `drop_duplicates(key)`: keep the first row for each key value. -/
def dedupByKey {α : Type _} (key : α → String) : List α → List α
  | [] => []
  | a :: rest => a :: dedupByKey key (rest.filter (fun b => !(key b == key a)))
termination_by l => l.length
decreasing_by
  simp only [List.length_cons]
  exact Nat.lt_succ_of_le (List.length_filter_le _ _)

/-- `DataRequestPipeline.process_bioactivity_data`: drops the legacy
`units`/`value` columns (`KeyError` when either is absent), coerces
`standard_value` to float (raises on non-numeric text), drops null rows
(`dropna`), keeps rows whose `standard_units` is `"nM"`, deduplicates by
compound id keeping the first occurrence, resets the index and renames
`standard_value`/`standard_units` to `IC50`/`units`. -/
def process_bioactivity_data (df : BioDF) : Except String CleanBioDF := do
  if ¬ ("units" ∈ df.cols ∧ "value" ∈ df.cols) then
    throw "Error processing bioactivity data: KeyError: units and value not found in axis"
  let cols1 := df.cols.filter (fun c => !(c == "units" || c == "value"))
  let coerced ← astypeRows df.rows
  let nonNull := coerced.filterMap (fun t => t.2.1.map (fun q => (t.1, q, t.2.2)))
  let inNM := nonNull.filter (fun t => t.2.2 == "nM")
  let ded := dedupByKey (fun t => t.1) inNM
  pure
    { cols := cols1.map (fun c =>
        if c = "standard_value" then "IC50" else if c = "standard_units" then "units" else c),
      rows := ded.map (fun t => { molecule_chembl_id := t.1, IC50 := t.2.1, units := t.2.2 }) }

/-- One raw compound row from the molecule API: `molecule_structures` is a
nested mapping, possibly null. -/
structure CompoundRecord where
  molecule_chembl_id : String
  molecule_structures : Option (List (String × String))
deriving DecidableEq, Repr

/-- A compound frame. -/
structure CompDF where
  cols : List String
  rows : List CompoundRecord
deriving DecidableEq, Repr

/-- Columns of a non-empty raw compound frame. -/
def rawCompCols : List String := ["molecule_chembl_id", "molecule_structures"]

/-- `query_chembl_compounds`: filters the external molecule table by
membership in the requested id list; an empty result frame has no columns. -/
def query_chembl_compounds (moleculeDb : List CompoundRecord) (ids : List String) : CompDF :=
  let rows := moleculeDb.filter (fun c => ids.contains c.molecule_chembl_id)
  { cols := if rows.isEmpty then [] else rawCompCols, rows := rows }

/-- A processed compound row: id plus the extracted canonical SMILES, `None`
when the nested mapping lacks the `canonical_smiles` key. -/
structure NormCompRow where
  molecule_chembl_id : String
  smiles : Option String
deriving DecidableEq, Repr

/-- The processed compound frame. -/
structure NormCompDF where
  cols : List String
  rows : List NormCompRow
deriving DecidableEq, Repr

/-- `DataRequestPipeline.process_compound_data`: `dropna` removes rows whose
structures mapping is null, `drop_duplicates` keeps the first row per
compound id, the canonical SMILES is then extracted per row (a `KeyError` on
the nested key is caught and recorded as `None`), the `smiles` column is
appended and `molecule_structures` is dropped (`KeyError` when that column
is absent, as on an empty frame). -/
def process_compound_data (df : CompDF) : Except String NormCompDF := do
  let nonNull := df.rows.filterMap (fun c =>
    c.molecule_structures.map (fun st => (c.molecule_chembl_id, st)))
  let ded := dedupByKey (fun t => t.1) nonNull
  let withSmiles := ded.map (fun t =>
    { molecule_chembl_id := t.1, smiles := t.2.lookup "canonical_smiles" : NormCompRow })
  if "molecule_structures" ∈ df.cols then
    pure { cols := df.cols.filter (fun c => !(c == "molecule_structures")) ++ ["smiles"],
           rows := withSmiles }
  else
    throw "Error processing compound data: KeyError: molecule_structures not found in axis"

/-- One merged row after `merge_data`. -/
structure MergedRow where
  molecule_chembl_id : String
  IC50 : ℚ
  units : String
  smiles : Option String
deriving DecidableEq, Repr

/-- `DataRequestPipeline.merge_data`: restricts the bioactivity frame to
`[molecule_chembl_id, IC50, units]` (`KeyError` when a column is missing) and
inner-joins with the compound frame on `molecule_chembl_id` (`KeyError` when
the key column is missing on either side); each pair of matching rows
produces one output row, in left-frame order. -/
def merge_data (bio : CleanBioDF) (comp : NormCompDF) : Except String (List MergedRow) := do
  if ¬ ("molecule_chembl_id" ∈ bio.cols ∧ "IC50" ∈ bio.cols ∧ "units" ∈ bio.cols) then
    throw "Error merging data: KeyError on bioactivity columns"
  if "molecule_chembl_id" ∉ comp.cols then
    throw "Error merging data: KeyError: molecule_chembl_id"
  pure (bio.rows.flatMap (fun b =>
    (comp.rows.filter (fun c => c.molecule_chembl_id == b.molecule_chembl_id)).map
      (fun c => { molecule_chembl_id := b.molecule_chembl_id, IC50 := b.IC50,
                  units := b.units, smiles := c.smiles })))

/-- Modelled from the spec: the scalar `convert_ic50_to_pic50` is imported
from `caddkit.utils` by the pipeline but absent from the sources. Per §4.1
and §8 of the spec, the potency conversion of a nanomolar IC50 is
`9 − log10(ic50)`, undefined on a non-positive input (the row is then dropped
by the pipeline's `dropna`). -/
noncomputable def convert_ic50_to_pic50 (ic50 : ℚ) : Option ℝ :=
  if ic50 ≤ 0 then none else some (9 - Real.logb 10 (ic50 : ℝ))

/-- One final screening row. -/
structure ScreenRow where
  molecule_chembl_id : String
  smiles : Option String
  pIC50 : ℝ

/-- The `DataRequestPipeline.convert_ic50_to_pic50` stage: applies the scalar
conversion to the `IC50` column, drops rows whose conversion is undefined
(`dropna(subset=["pIC50"])`), sorts by `pIC50` descending, resets the index
and drops the `units` and `IC50` columns. -/
noncomputable def convert_step (merged : List MergedRow) : List ScreenRow :=
  let converted := merged.filterMap (fun m =>
    (convert_ic50_to_pic50 m.IC50).map (fun p =>
      { molecule_chembl_id := m.molecule_chembl_id, smiles := m.smiles, pIC50 := p }))
  converted.mergeSort (fun a b => decide (b.pIC50 ≤ a.pIC50))

/-! ### Module loading

`caddkit/pipelines/chembl_data_request.py` opens with
`from caddkit.api.chembl import get_chembl_id_by_uniprot, query_bioactivity,
query_compounds` and `from caddkit.utils import convert_ic50_to_pic50`.
As with the missing `os`/`tqdm` imports of the fingerprint module, Python
name resolution is part of the embedded behavior: a from-import binds each
requested name from the providing module's namespace and raises
`ImportError` at the first name the module does not define. The namespaces
below list what the staged modules actually define. -/

/-- The names defined by the staged `caddkit.api.chembl` module (its own
imports plus its four function definitions — note `query_chembl_bioactivity`
and `query_chembl_compounds`, not `query_bioactivity`/`query_compounds`). -/
def api_chembl_module_names : List String :=
  ["pd", "new_client", "tqdm", "get_chembl_targets_by_uniprot",
   "get_chembl_id_by_uniprot", "query_chembl_bioactivity", "query_chembl_compounds"]

/-- The names defined by the staged `caddkit.utils` module (its imports plus
its single function — `ic50_to_pic50`, not `convert_ic50_to_pic50`). -/
def utils_module_names : List String := ["log10", "Union", "ic50_to_pic50"]

/-- One Python from-import statement: each requested name is resolved in
order against the providing module's namespace; the first missing name
raises `ImportError`. -/
def resolveFromImport (moduleName : String) (provided requested : List String) :
    Except String Unit :=
  match requested.find? (fun n => !(provided.contains n)) with
  | some n => .error ("ImportError: cannot import name " ++ n ++ " from " ++ moduleName)
  | none => .ok ()

/-- Loading `caddkit.pipelines.chembl_data_request`: its two from-import
statements, in source order, resolved against the staged modules. -/
def load_chembl_data_request : Except String Unit := do
  resolveFromImport "caddkit.api.chembl" api_chembl_module_names
    ["get_chembl_id_by_uniprot", "query_bioactivity", "query_compounds"]
  resolveFromImport "caddkit.utils" utils_module_names ["convert_ic50_to_pic50"]

/-- The body of `DataRequestPipeline.run` as its stages are written — with
`query_bioactivity`, `query_compounds` and `convert_ic50_to_pic50` bound to
the functions the from-imports request (the bindings the molpharm twin of
this pipeline and the staged api module's `query_chembl_*` definitions
spell). This body is reachable only if `load_chembl_data_request` succeeds,
which against the staged modules it never does. Each stage is a strict
prerequisite of the next, and a raised error aborts the chain. -/
noncomputable def runE (uniprot_id : String) (registry : List TargetRecord)
    (activityDb : List ActivityRecord) (moleculeDb : List CompoundRecord) :
    Except String (List ScreenRow) := do
  let chembl_id := get_chembl_id_by_uniprot uniprot_id registry 0
  let bio_raw := query_chembl_bioactivity activityDb chembl_id
  let bio ← process_bioactivity_data bio_raw
  let comp_raw := query_chembl_compounds moleculeDb
    (bio.rows.map (fun r => r.molecule_chembl_id))
  let comp ← process_compound_data comp_raw
  let merged ← merge_data bio comp
  pure (convert_step merged)

/-- `DataRequestPipeline.run` as written: the whole chain is wrapped in one
handler that prints the failure and returns an empty frame. Like `runE`,
this method only exists once its module has loaded. -/
noncomputable def run (uniprot_id : String) (registry : List TargetRecord)
    (activityDb : List ActivityRecord) (moleculeDb : List CompoundRecord) :
    List ScreenRow :=
  match runE uniprot_id registry activityDb moleculeDb with
  | .ok rows => rows
  | .error _ => []

/-- Calling `DataRequestPipeline(uniprot_id).run()` from a caller module:
Python must first load `caddkit.pipelines.chembl_data_request`; only then
does the `run` body — with its internal catch-all — come into scope. A load
failure is an exception the caller receives unhandled. -/
noncomputable def call_run (uniprot_id : String) (registry : List TargetRecord)
    (activityDb : List ActivityRecord) (moleculeDb : List CompoundRecord) :
    Except String (List ScreenRow) :=
  match load_chembl_data_request with
  | .error e => .error e
  | .ok _ => .ok (run uniprot_id registry activityDb moleculeDb)

/-- C2: the staged `caddkit.pipelines.chembl_data_request` module never
loads — its first from-import requests `query_bioactivity`, a name the
staged `caddkit.api.chembl` does not define — so every call of
`DataRequestPipeline.run`, for every target identifier and every state of
the external registry, raises an unhandled `ImportError` to the caller
before the body of `run` (and its catch-all handler) can even come into
scope. The caller gets an exception, not an empty result set, refuting the
claim; the intended bindings are a slip, as the molpharm twin of this
pipeline, the api module's `query_chembl_*` definitions and the test
module's imports show. -/
theorem run_import_error (uniprot_id : String) (registry : List TargetRecord)
    (activityDb : List ActivityRecord) (moleculeDb : List CompoundRecord) :
    call_run uniprot_id registry activityDb moleculeDb =
      .error "ImportError: cannot import name query_bioactivity from caddkit.api.chembl" :=
  rfl

/-- Under the intended bindings — the functions the from-imports request, as
the molpharm twin and the staged api module spell them — the `run` body does
realize the propagation policy C2 describes: a stage error yields the empty
result set, and zero registry matches yield the empty set with the
target-not-found `ValueError` signalled in the log. The failing imports
prevent this body from ever executing. -/
lemma run_fixed_imports_error_policy (uniprot_id : String)
    (registry : List TargetRecord)
    (activityDb : List ActivityRecord) (moleculeDb : List CompoundRecord) :
    (∀ e, runE uniprot_id registry activityDb moleculeDb = .error e →
      run uniprot_id registry activityDb moleculeDb = []) ∧
    (registry = [] →
      run uniprot_id registry activityDb moleculeDb = [] ∧
      (get_chembl_targets_by_uniprot uniprot_id registry).2 =
        ["ValueError: No targets found for UniProt ID: " ++ uniprot_id]) := by
  constructor
  · intro e he
    rw [run, he]
  · intro hreg
    subst hreg
    exact ⟨rfl, rfl⟩

/-! ### Cleaning-step lemmas -/

lemma dedupByKey_length_le {α : Type _} (key : α → String) :
    ∀ l : List α, (dedupByKey key l).length ≤ l.length
  | [] => by simp [dedupByKey]
  | a :: rest => by
    rw [dedupByKey]
    simp only [List.length_cons]
    have h1 := dedupByKey_length_le key (rest.filter (fun b => !(key b == key a)))
    have h2 := List.length_filter_le (fun b => !(key b == key a)) rest
    omega
termination_by l => l.length
decreasing_by
  simp only [List.length_cons]
  exact Nat.lt_succ_of_le (List.length_filter_le _ _)

lemma mem_dedupByKey {α : Type _} (key : α → String) :
    ∀ (l : List α) (a : α), a ∈ dedupByKey key l → a ∈ l
  | [], a, h => by simp [dedupByKey] at h
  | b :: rest, a, h => by
    rw [dedupByKey] at h
    rcases List.mem_cons.mp h with h | h
    · exact h ▸ List.mem_cons_self _ _
    · exact List.mem_cons_of_mem _
        (List.mem_of_mem_filter (mem_dedupByKey key _ a h))
termination_by l => l.length
decreasing_by
  simp only [List.length_cons]
  exact Nat.lt_succ_of_le (List.length_filter_le _ _)

lemma astypeRows_ok (l : List ActivityRecord)
    (h : ∀ a ∈ l, ∀ s, a.standard_value ≠ RawVal.bad s) :
    astypeRows l = .ok (l.map (fun a =>
      (a.molecule_chembl_id,
        (match a.standard_value with | .fl q => some q | _ => none),
        a.standard_units))) := by
  induction l with
  | nil => rfl
  | cons a rest ih =>
    have ha := h a (List.mem_cons_self _ _)
    have hrest := ih (fun b hb => h b (List.mem_cons_of_mem _ hb))
    cases hval : a.standard_value with
    | fl q => simp [astypeRows, astypeFloat, hval, hrest, Except.map]
    | na => simp [astypeRows, astypeFloat, hval, hrest, Except.map]
    | bad s => exact absurd hval (ha s)

lemma astypeRows_error (l : List ActivityRecord)
    (h : ∃ a ∈ l, ∃ s, a.standard_value = RawVal.bad s) :
    ∃ e, astypeRows l = .error e := by
  induction l with
  | nil => simp at h
  | cons a rest ih =>
    rcases h with ⟨b, hb, s, hs⟩
    rcases List.mem_cons.mp hb with hb | hb
    · subst hb
      refine ⟨"Error processing bioactivity data: " ++
        ("could not convert string to float: " ++ s), ?_⟩
      rw [astypeRows, hs]
      rfl
    · cases hval : a.standard_value with
      | fl q =>
        obtain ⟨e, he⟩ := ih ⟨b, hb, s, hs⟩
        refine ⟨e, ?_⟩
        rw [astypeRows, hval]
        simp only [astypeFloat]
        rw [he]
        rfl
      | na =>
        obtain ⟨e, he⟩ := ih ⟨b, hb, s, hs⟩
        refine ⟨e, ?_⟩
        rw [astypeRows, hval]
        simp only [astypeFloat]
        rw [he]
        rfl
      | bad s2 =>
        refine ⟨"Error processing bioactivity data: " ++
          ("could not convert string to float: " ++ s2), ?_⟩
        rw [astypeRows, hval]
        rfl

/-- C8 (amended): the cleaning step fails as a whole on a structural problem
(a missing expected column) and also when some raw value is non-numeric text
(the float coercion raises rather than dropping the row); rows with null raw
values are silently dropped: when every raw value is numeric or null the step
succeeds, returning at most as many rows as the input, all in nM, each
originating from an input row with that numeric value. -/
theorem process_bioactivity_spec (df : BioDF) :
    (("units" ∉ df.cols ∨ "value" ∉ df.cols) →
      ∃ e, process_bioactivity_data df = .error e) ∧
    ("units" ∈ df.cols → "value" ∈ df.cols →
      (∃ a ∈ df.rows, ∃ s, a.standard_value = RawVal.bad s) →
      ∃ e, process_bioactivity_data df = .error e) ∧
    ("units" ∈ df.cols → "value" ∈ df.cols →
      (∀ a ∈ df.rows, ∀ s, a.standard_value ≠ RawVal.bad s) →
      ∃ out, process_bioactivity_data df = .ok out ∧
        out.rows.length ≤ df.rows.length ∧
        (∀ r ∈ out.rows, r.units = "nM") ∧
        (∀ r ∈ out.rows, ∃ a ∈ df.rows,
          a.molecule_chembl_id = r.molecule_chembl_id ∧
          a.standard_value = RawVal.fl r.IC50 ∧ a.standard_units = "nM")) := by
  refine ⟨?_, ?_, ?_⟩
  · intro hmiss
    have hc : ¬("units" ∈ df.cols ∧ "value" ∈ df.cols) := by tauto
    refine ⟨"Error processing bioactivity data: KeyError: units and value not found in axis", ?_⟩
    rw [process_bioactivity_data, if_pos hc]
    rfl
  · intro hu hv hbad
    have hc : ("units" ∈ df.cols ∧ "value" ∈ df.cols) := ⟨hu, hv⟩
    obtain ⟨e, he⟩ := astypeRows_error df.rows hbad
    refine ⟨e, ?_⟩
    rw [process_bioactivity_data, if_neg (not_not_intro hc), he]
    rfl
  · intro hu hv hok
    have hc : ("units" ∈ df.cols ∧ "value" ∈ df.cols) := ⟨hu, hv⟩
    have hast := astypeRows_ok df.rows hok
    have hproc : process_bioactivity_data df = .ok
        { cols := (df.cols.filter (fun c => !(c == "units" || c == "value"))).map
            (fun c => if c = "standard_value" then "IC50"
              else if c = "standard_units" then "units" else c),
          rows := (dedupByKey (fun t => t.1)
              (((df.rows.map (fun a => (a.molecule_chembl_id,
                    (match a.standard_value with | .fl q => some q | _ => none),
                    a.standard_units))).filterMap
                  (fun t => t.2.1.map (fun q => (t.1, q, t.2.2)))).filter
                (fun t => t.2.2 == "nM"))).map
            (fun t => { molecule_chembl_id := t.1, IC50 := t.2.1, units := t.2.2 }) } := by
      rw [process_bioactivity_data, if_neg (not_not_intro hc), hast]
      rfl
    refine ⟨_, hproc, ?_, ?_, ?_⟩
    · simp only [List.length_map]
      have h1 := dedupByKey_length_le (fun t : String × ℚ × String => t.1)
        (((df.rows.map (fun a => (a.molecule_chembl_id,
              (match a.standard_value with | .fl q => some q | _ => none),
              a.standard_units))).filterMap
            (fun t => t.2.1.map (fun q => (t.1, q, t.2.2)))).filter
          (fun t => t.2.2 == "nM"))
      have h2 := List.length_filter_le (fun t : String × ℚ × String => t.2.2 == "nM")
        ((df.rows.map (fun a => (a.molecule_chembl_id,
            (match a.standard_value with | .fl q => some q | _ => none),
            a.standard_units))).filterMap
          (fun t => t.2.1.map (fun q => (t.1, q, t.2.2))))
      have h3 := List.length_filterMap_le
        (fun t : String × Option ℚ × String => t.2.1.map (fun q => (t.1, q, t.2.2)))
        (df.rows.map (fun a => (a.molecule_chembl_id,
            (match a.standard_value with | .fl q => some q | _ => none),
            a.standard_units)))
      have h4 := List.length_map df.rows (fun a => (a.molecule_chembl_id,
          (match a.standard_value with | .fl q => some q | _ => none),
          a.standard_units))
      omega
    · intro r hr
      obtain ⟨t, ht, hteq⟩ := List.mem_map.mp hr
      have htn := mem_dedupByKey _ _ _ ht
      have hfl := (List.mem_filter.mp htn).2
      rw [← hteq]
      simpa using hfl
    · intro r hr
      obtain ⟨t, ht, hteq⟩ := List.mem_map.mp hr
      have htn := mem_dedupByKey _ _ _ ht
      have htm := (List.mem_filter.mp htn).1
      have hunit := (List.mem_filter.mp htn).2
      obtain ⟨u, hu2, hu3⟩ := List.mem_filterMap.mp htm
      obtain ⟨a, ha, haeq⟩ := List.mem_map.mp hu2
      refine ⟨a, ha, ?_⟩
      subst haeq
      cases hval : a.standard_value with
      | fl q =>
        rw [hval] at hu3
        simp at hu3
        subst hu3
        simp only [beq_iff_eq] at hunit
        rw [← hteq]
        exact ⟨rfl, rfl, hunit⟩
      | na =>
        rw [hval] at hu3
        simp at hu3
      | bad s => exact absurd hval (hok a ha s)

/-- C8 counterexample: with every expected column present, a single row whose
raw value is the non-numeric text abc makes the whole cleaning step fail with
the coercion error — it is not silently dropped — so failure is not limited
to structural problems. -/
theorem process_bioactivity_counterexample :
    ("units" ∈ rawBioCols ∧ "value" ∈ rawBioCols) ∧
    process_bioactivity_data
        ⟨rawBioCols, [⟨"CHEMBL1", RawVal.bad "abc", "nM", "T1"⟩]⟩ =
      .error "Error processing bioactivity data: could not convert string to float: abc" :=
  ⟨by decide, rfl⟩

/-- Witness for C8 (amended) on a two-row frame with one numeric nM row and
one null row: the step succeeds and the null row is dropped. -/
theorem process_bioactivity_spec_witness :
    ∃ out, process_bioactivity_data
        ⟨rawBioCols, [⟨"CHEMBL1", RawVal.fl 100, "nM", "T1"⟩,
                      ⟨"CHEMBL2", RawVal.na, "nM", "T1"⟩]⟩ = .ok out ∧
      out.rows.length ≤ [⟨"CHEMBL1", RawVal.fl 100, "nM", "T1"⟩,
                         (⟨"CHEMBL2", RawVal.na, "nM", "T1"⟩ : ActivityRecord)].length ∧
      (∀ r ∈ out.rows, r.units = "nM") ∧
      (∀ r ∈ out.rows, ∃ a ∈ [⟨"CHEMBL1", RawVal.fl 100, "nM", "T1"⟩,
          (⟨"CHEMBL2", RawVal.na, "nM", "T1"⟩ : ActivityRecord)],
        a.molecule_chembl_id = r.molecule_chembl_id ∧
        a.standard_value = RawVal.fl r.IC50 ∧ a.standard_units = "nM") :=
  (process_bioactivity_spec
      ⟨rawBioCols, [⟨"CHEMBL1", RawVal.fl 100, "nM", "T1"⟩,
                    ⟨"CHEMBL2", RawVal.na, "nM", "T1"⟩]⟩).2.2
    (by decide) (by decide)
    (by
      intro a ha s
      rcases List.mem_cons.mp ha with h | h
      · subst h; simp
      · rcases List.mem_cons.mp h with h | h
        · subst h; simp
        · simp at h)

/-! ### Merge and conversion lemmas -/

lemma filter_key_length_le_one {α : Type _} (key : α → String) (l : List α)
    (h : (l.map key).Nodup) (x : String) :
    (l.filter (fun c => key c == x)).length ≤ 1 := by
  induction l with
  | nil => simp
  | cons a l ih =>
    simp only [List.map_cons, List.nodup_cons] at h
    by_cases hx : key a == x
    · have hnil : l.filter (fun c => key c == x) = [] := by
        rw [List.filter_eq_nil_iff]
        intro b hb hbx
        refine h.1 ?_
        have h1 : key b = x := by simpa using hbx
        have h2 : key a = x := by simpa using hx
        rw [h2, ← h1]
        exact List.mem_map_of_mem key hb
      simp [List.filter_cons, hx, hnil]
    · simp only [List.filter_cons, hx, Bool.false_eq_true, if_false]
      exact ih h.2

lemma map_flatMap_sublist {α β γ : Type _} (f : α → List β) (pa : α → γ) (pb : β → γ)
    (l : List α) (h : ∀ a, (f a).map pb = [] ∨ (f a).map pb = [pa a]) :
    ((l.flatMap f).map pb).Sublist (l.map pa) := by
  induction l with
  | nil => simp
  | cons a l ih =>
    simp only [List.flatMap_cons, List.map_append, List.map_cons]
    rcases h a with ha | ha
    · rw [ha]
      simp only [List.nil_append]
      exact ih.cons _
    · rw [ha]
      simp only [List.singleton_append]
      exact ih.cons₂ _

lemma map_filterMap_sublist {α β γ : Type _} (g : α → Option β) (pa : α → γ) (pb : β → γ)
    (l : List α) (h : ∀ a b, g a = some b → pb b = pa a) :
    ((l.filterMap g).map pb).Sublist (l.map pa) := by
  induction l with
  | nil => simp
  | cons a l ih =>
    cases hga : g a with
    | none =>
      simp only [List.filterMap_cons, hga, List.map_cons]
      exact ih.cons _
    | some b =>
      simp only [List.filterMap_cons, hga, List.map_cons]
      rw [h a b hga]
      exact ih.cons₂ _

lemma convert_ic50_to_pic50_eq_some_iff (q : ℚ) :
    (∃ p, convert_ic50_to_pic50 q = some p) ↔ 0 < q := by
  rw [convert_ic50_to_pic50]
  by_cases h : q ≤ 0
  · rw [if_pos h]
    constructor
    · rintro ⟨p, hp⟩
      exact absurd hp (by simp)
    · intro hq
      exact absurd h (by linarith)
  · rw [if_neg h]
    constructor
    · intro _
      linarith [not_le.mp h]
    · intro _
      exact ⟨_, rfl⟩

/-- C7 (amended): after a successful merge of a cleaned bioactivity frame and
a normalized structure frame, each with unique compound ids, the final
screening table has exactly one row per compound id present in both sides
whose IC50 has a defined (positive) potency conversion — rows failing the
conversion are dropped — and the rows are sorted by potency score in
descending order. -/
theorem merge_convert_spec (bio : CleanBioDF) (comp : NormCompDF)
    (hbc : "molecule_chembl_id" ∈ bio.cols ∧ "IC50" ∈ bio.cols ∧ "units" ∈ bio.cols)
    (hcc : "molecule_chembl_id" ∈ comp.cols)
    (hbnd : (bio.rows.map (fun r => r.molecule_chembl_id)).Nodup)
    (hcnd : (comp.rows.map (fun r => r.molecule_chembl_id)).Nodup) :
    ∃ merged, merge_data bio comp = .ok merged ∧
      ((convert_step merged).map (fun r => r.molecule_chembl_id)).Nodup ∧
      (∀ i, i ∈ (convert_step merged).map (fun r => r.molecule_chembl_id) ↔
        ((∃ b ∈ bio.rows, b.molecule_chembl_id = i ∧ 0 < b.IC50) ∧
         (∃ c ∈ comp.rows, c.molecule_chembl_id = i))) ∧
      (convert_step merged).Sorted (fun a b => b.pIC50 ≤ a.pIC50) := by
  classical
  set f : CleanBioRow → List MergedRow := fun b =>
    (comp.rows.filter (fun c => c.molecule_chembl_id == b.molecule_chembl_id)).map
      (fun c => { molecule_chembl_id := b.molecule_chembl_id, IC50 := b.IC50,
                  units := b.units, smiles := c.smiles }) with hf
  set M := bio.rows.flatMap f with hM
  have hmerge : merge_data bio comp = .ok M := by
    rw [merge_data, if_neg (not_not_intro hbc), if_neg (not_not_intro hcc)]
    rfl
  set g : MergedRow → Option ScreenRow := fun m =>
    (convert_ic50_to_pic50 m.IC50).map (fun p =>
      { molecule_chembl_id := m.molecule_chembl_id, smiles := m.smiles, pIC50 := p }) with hg
  have hgid : ∀ m x, g m = some x → x.molecule_chembl_id = m.molecule_chembl_id := by
    intro m x hgm
    rw [hg] at hgm
    simp only [Option.map_eq_some'] at hgm
    obtain ⟨p, _, hx⟩ := hgm
    rw [← hx]
  have hblock : ∀ b, (f b).map (fun r => r.molecule_chembl_id) = [] ∨
      (f b).map (fun r => r.molecule_chembl_id) = [b.molecule_chembl_id] := by
    intro b
    rw [hf]
    simp only
    have hlen := filter_key_length_le_one (fun c => c.molecule_chembl_id) comp.rows hcnd
      b.molecule_chembl_id
    cases hfil : comp.rows.filter
        (fun c => c.molecule_chembl_id == b.molecule_chembl_id) with
    | nil => left; simp [hfil]
    | cons c rest =>
      right
      rw [hfil] at hlen
      simp only [List.length_cons] at hlen
      have hrest : rest = [] := List.length_eq_zero.mp (by omega)
      subst hrest
      simp [hfil]
  have hsub1 : ((M.filterMap g).map (fun r => r.molecule_chembl_id)).Sublist
      (M.map (fun m => m.molecule_chembl_id)) :=
    map_filterMap_sublist g _ _ M hgid
  have hsub2 : (M.map (fun m => m.molecule_chembl_id)).Sublist
      (bio.rows.map (fun b => b.molecule_chembl_id)) := by
    rw [hM]
    exact map_flatMap_sublist f _ _ bio.rows hblock
  have hconvnd : ((M.filterMap g).map (fun r => r.molecule_chembl_id)).Nodup :=
    (hsub1.trans hsub2).nodup hbnd
  have hsortperm : (convert_step M).Perm (M.filterMap g) := by
    rw [convert_step]
    exact List.mergeSort_perm _ _
  have hmapperm : ((convert_step M).map (fun r => r.molecule_chembl_id)).Perm
      ((M.filterMap g).map (fun r => r.molecule_chembl_id)) := hsortperm.map _
  refine ⟨M, hmerge, hmapperm.nodup_iff.mpr hconvnd, ?_, ?_⟩
  · intro i
    rw [hmapperm.mem_iff]
    constructor
    · intro hi
      obtain ⟨x, hx, hxi⟩ := List.mem_map.mp hi
      obtain ⟨m, hm, hgm⟩ := List.mem_filterMap.mp hx
      have hxid := hgid m x hgm
      have hpos : 0 < m.IC50 := by
        refine (convert_ic50_to_pic50_eq_some_iff m.IC50).mp ?_
        rw [hg] at hgm
        simp only [Option.map_eq_some'] at hgm
        obtain ⟨p, hp, _⟩ := hgm
        exact ⟨p, hp⟩
      rw [hM] at hm
      obtain ⟨b, hb, hmb⟩ := List.mem_flatMap.mp hm
      rw [hf] at hmb
      simp only at hmb
      obtain ⟨c, hc, hcm⟩ := List.mem_map.mp hmb
      have hcmem := List.mem_of_mem_filter hc
      have hcid : c.molecule_chembl_id = b.molecule_chembl_id := by
        simpa using (List.mem_filter.mp hc).2
      constructor
      · refine ⟨b, hb, ?_, ?_⟩
        · rw [← hxi, hxid, ← hcm]
        · have : m.IC50 = b.IC50 := by rw [← hcm]
          rw [← this]
          exact hpos
      · refine ⟨c, hcmem, ?_⟩
        rw [hcid, ← hxi, hxid, ← hcm]
    · rintro ⟨⟨b, hb, hbi, hbpos⟩, ⟨c, hc, hci⟩⟩
      have hcfil : c ∈ comp.rows.filter
          (fun c2 => c2.molecule_chembl_id == b.molecule_chembl_id) := by
        rw [List.mem_filter]
        exact ⟨hc, by simp [hci, hbi]⟩
      obtain ⟨m, hm⟩ : ∃ m : MergedRow,
          m = { molecule_chembl_id := b.molecule_chembl_id, IC50 := b.IC50,
                units := b.units, smiles := c.smiles } := ⟨_, rfl⟩
      have hmM : m ∈ M := by
        rw [hM]
        refine List.mem_flatMap.mpr ⟨b, hb, ?_⟩
        rw [hf]
        simp only
        refine List.mem_map.mpr ⟨c, hcfil, ?_⟩
        rw [hm]
      obtain ⟨p, hp⟩ := (convert_ic50_to_pic50_eq_some_iff b.IC50).mpr hbpos
      have hIC : m.IC50 = b.IC50 := by rw [hm]
      have hgm : ∃ x, g m = some x ∧ x.molecule_chembl_id = m.molecule_chembl_id := by
        rw [hg]
        simp only
        rw [hIC, hp]
        exact ⟨_, rfl, rfl⟩
      obtain ⟨x, hgmx, hxid⟩ := hgm
      refine List.mem_map.mpr ⟨x, List.mem_filterMap.mpr ⟨m, hmM, hgmx⟩, ?_⟩
      rw [hxid, hm]
      exact hbi
  · rw [convert_step]
    have hs := @List.sorted_mergeSort ScreenRow
      (fun a b : ScreenRow => decide (b.pIC50 ≤ a.pIC50))
      (fun a b c hab hbc => by
        simp only [decide_eq_true_eq] at *
        exact le_trans hbc hab)
      (fun a b => by
        simp only [Bool.or_eq_true, decide_eq_true_eq]
        exact le_total _ _)
      (M.filterMap g)
    exact hs.imp (fun h => by simpa using h)

/-- C7 counterexample: compound B is present in both the cleaned bioactivity
set (with IC50 = 0) and the normalized structure set, yet the final screening
table contains no row for it — the conversion of a non-positive IC50 is
undefined and the row is dropped — so the table does not contain exactly one
row per compound id present in both sides. -/
theorem merge_convert_counterexample :
    merge_data
        ⟨["molecule_chembl_id", "IC50", "units"],
         [⟨"A", 100, "nM"⟩, ⟨"B", 0, "nM"⟩]⟩
        ⟨["molecule_chembl_id", "smiles"],
         [⟨"A", some "CCO"⟩, ⟨"B", some "CCC"⟩]⟩ =
      .ok [⟨"A", 100, "nM", some "CCO"⟩, ⟨"B", 0, "nM", some "CCC"⟩] ∧
    "B" ∈ [(⟨"A", 100, "nM"⟩ : CleanBioRow), ⟨"B", 0, "nM"⟩].map
      (fun r => r.molecule_chembl_id) ∧
    "B" ∈ [(⟨"A", some "CCO"⟩ : NormCompRow), ⟨"B", some "CCC"⟩].map
      (fun r => r.molecule_chembl_id) ∧
    (convert_step [⟨"A", 100, "nM", some "CCO"⟩, ⟨"B", 0, "nM", some "CCC"⟩]).map
      (fun r => r.molecule_chembl_id) = ["A"] := by
  refine ⟨rfl, by decide, by decide, ?_⟩
  have h1 : convert_ic50_to_pic50 100 = some (9 - Real.logb 10 ((100 : ℚ) : ℝ)) := by
    rw [convert_ic50_to_pic50, if_neg (by norm_num)]
  have h2 : convert_ic50_to_pic50 0 = none := by
    rw [convert_ic50_to_pic50, if_pos le_rfl]
  simp [convert_step, h1, h2]

/-- Witness for C7 (amended) on singleton frames with a positive IC50. -/
theorem merge_convert_spec_witness :
    ∃ merged, merge_data
        ⟨["molecule_chembl_id", "IC50", "units"], [⟨"A", 100, "nM"⟩]⟩
        ⟨["molecule_chembl_id", "smiles"], [⟨"A", some "CCO"⟩]⟩ = .ok merged ∧
      ((convert_step merged).map (fun r => r.molecule_chembl_id)).Nodup ∧
      (∀ i, i ∈ (convert_step merged).map (fun r => r.molecule_chembl_id) ↔
        ((∃ b ∈ [(⟨"A", 100, "nM"⟩ : CleanBioRow)], b.molecule_chembl_id = i ∧ 0 < b.IC50) ∧
         (∃ c ∈ [(⟨"A", some "CCO"⟩ : NormCompRow)], c.molecule_chembl_id = i))) ∧
      (convert_step merged).Sorted (fun a b => b.pIC50 ≤ a.pIC50) :=
  merge_convert_spec
    ⟨["molecule_chembl_id", "IC50", "units"], [⟨"A", 100, "nM"⟩]⟩
    ⟨["molecule_chembl_id", "smiles"], [⟨"A", some "CCO"⟩]⟩
    (by decide) (by decide) (by decide) (by decide)

/-! ## Streaming fingerprint export: `generate_fingerprint_dfs_to_csv` in
`caddkit/fingerprints.py`

The module imports only rdkit names, numpy and pandas; `os` and `tqdm` are
referenced by this function but never imported, so Python name resolution is
part of the embedded behavior: each module-global reference resolves against
the module import list at the moment it is evaluated. -/

/-- The module-global names bound by the imports of `caddkit/fingerprints.py`
(`os` and `tqdm` are not among them). -/
def fingerprints_module_globals : List String :=
  ["Chem", "DataStructs", "AllChem", "MACCSkeys", "rdFingerprintGenerator", "np", "pd"]

/-- One output cell of the export: an original value, a fingerprint count, or
NaN (which is also what the None placeholder becomes in the written frame). -/
inductive OutCell
  | val (v : Value)
  | num (q : ℚ)
  | nan
deriving DecidableEq, Repr

/-- One line of the persisted CSV sink. -/
inductive CSVLine
  | header (cells : List String)
  | data (cells : List OutCell)
deriving DecidableEq, Repr

/-- `result_chunk.to_csv(path, mode="a", header=not os.path.exists(path))`:
appends the data rows, preceded by the header row exactly when the file does
not exist yet, creating it. -/
def to_csv_append (file : Option (List CSVLine)) (header : List String)
    (rows : List (List OutCell)) : List CSVLine :=
  match file with
  | none => CSVLine.header header :: rows.map CSVLine.data
  | some f => f ++ rows.map CSVLine.data

/-- The `range(0, total_rows, chunk_size)` slicing: the rows in chunks of the
given size, the last possibly shorter. -/
def chunksOf {α : Type _} : ℕ → List α → List (List α)
  | _, [] => []
  | 0, _ :: _ => []
  | n + 1, a :: rest =>
    ((a :: rest).take (n + 1)) :: chunksOf (n + 1) ((a :: rest).drop (n + 1))
termination_by _ l => l.length
decreasing_by
  simp only [List.length_drop, List.length_cons]
  omega

/-- An input frame for the batch export. -/
structure FPDF where
  cols : List String
  rows : List Row

/-- One row of the fingerprint block: the encoded vector, or the
single-element None placeholder when the row's encoding raised (the error is
swallowed and the loop continues). -/
def rowFingerprint (fingerprint_fn : String → Except String (List ℚ))
    (smiles_col : String) (row : Row) : List (Option ℚ) :=
  match fingerprint_fn (getSmiles row smiles_col) with
  | .ok fp => fp.map some
  | .error _ => [none]

/-- The fingerprint block of one chunk. -/
def chunkFingerprints (fingerprint_fn : String → Except String (List ℚ))
    (smiles_col : String) (chunk : List Row) : List (List (Option ℚ)) :=
  chunk.map (rowFingerprint fingerprint_fn smiles_col)

/-- `pd.DataFrame(fingerprints)` is as wide as its longest row. -/
def chunkWidth (fps : List (List (Option ℚ))) : ℕ :=
  (fps.map List.length).foldr max 0

/-- The original cells of one row, in column order. -/
def origCells (row : Row) : List OutCell :=
  row.map (fun kv => OutCell.val kv.2)

/-- One row of the fingerprint frame, padded with NaN to the frame width. -/
def fpCells (width : ℕ) (fp : List (Option ℚ)) : List OutCell :=
  fp.map (fun o => match o with | some q => OutCell.num q | none => OutCell.nan) ++
    List.replicate (width - fp.length) OutCell.nan

/-- `pd.concat([chunk.reset_index(drop=True), fingerprint_df], axis=1)`: each
output row is the original cells followed by the padded fingerprint cells. -/
def processChunk (fingerprint_fn : String → Except String (List ℚ))
    (smiles_col : String) (chunk : List Row) : List (List OutCell) :=
  let fps := chunkFingerprints fingerprint_fn smiles_col chunk
  (chunk.zip fps).map (fun t => origCells t.1 ++ fpCells (chunkWidth fps) t.2)

/-- The header of one written chunk: the original columns, then one
fingerprint column name per fingerprint-frame column. -/
def chunkHeader (cols : List String) (fp_column_name : String) (width : ℕ) :
    List String :=
  cols ++ (List.range width).map (fun i => fp_column_name ++ toString i)

/-- `generate_fingerprint_dfs_to_csv`: validates the smiles column, then
resolves the module-global `os` before touching the sink (the first sink
operation is `os.path.exists`); with `os` in scope any pre-existing sink at
the output path is removed, `tqdm` is resolved for the progress bar, the rows
are processed in chunks of `chunk_size`, and each chunk of encoded rows is
appended to the sink immediately, the file being created with a header row by
the first write. The final sink state is returned. -/
def generate_fingerprint_dfs_to_csv (env : List String) (X_df : FPDF)
    (fingerprint_fn : String → Except String (List ℚ))
    (output_sink : Option (List CSVLine))
    (smiles_col : String := "smiles") (fp_column_name : String := "")
    (chunk_size : ℕ := 100) : Except String (Option (List CSVLine)) :=
  if smiles_col ∉ X_df.cols then
    .error ("Input DataFrame must contain a " ++ smiles_col ++ " column.")
  else if "os" ∉ env then
    .error "NameError: name os is not defined"
  else if "tqdm" ∉ env then
    .error "NameError: name tqdm is not defined"
  else if chunk_size = 0 then
    .error "ValueError: range() arg 3 must not be zero"
  else
    .ok ((chunksOf chunk_size X_df.rows).foldl
      (fun file chunk =>
        some (to_csv_append file
          (chunkHeader X_df.cols fp_column_name
            (chunkWidth (chunkFingerprints fingerprint_fn smiles_col chunk)))
          (processChunk fingerprint_fn smiles_col chunk)))
      none)

/-- C9: in the actual module environment of `caddkit/fingerprints.py`, which
imports neither `os` nor `tqdm`, every call of the streaming export on a
frame containing its smiles column fails with `NameError` at the first sink
operation, for every input table, chunk size and pre-existing sink state: no
chunk is ever committed, contradicting the claimed chunk-commit behavior
(code bug: the function body uses `os` and `tqdm` but the module never
imports them). -/
theorem generate_fingerprint_dfs_to_csv_name_error (X_df : FPDF)
    (fingerprint_fn : String → Except String (List ℚ))
    (output_sink : Option (List CSVLine)) (smiles_col fp_column_name : String)
    (chunk_size : ℕ) (hsc : smiles_col ∈ X_df.cols) :
    generate_fingerprint_dfs_to_csv fingerprints_module_globals X_df fingerprint_fn
      output_sink smiles_col fp_column_name chunk_size =
      .error "NameError: name os is not defined" := by
  rw [generate_fingerprint_dfs_to_csv, if_neg (not_not_intro hsc), if_pos (by decide)]

/-- Witness for C9 on a one-row frame. -/
theorem generate_fingerprint_dfs_to_csv_name_error_witness :
    generate_fingerprint_dfs_to_csv fingerprints_module_globals
      ⟨["smiles"], [[("smiles", Value.str "CCO")]]⟩
      (fun _ => .ok [1]) none "smiles" "" 100 =
      .error "NameError: name os is not defined" :=
  generate_fingerprint_dfs_to_csv_name_error
    ⟨["smiles"], [[("smiles", Value.str "CCO")]]⟩
    (fun _ => .ok [1]) none "smiles" "" 100 (by decide)

/-! ### The intended streaming behavior, under a repaired environment

The following lemmas show that, with the two missing imports supplied, the
function body does realize the documented behavior: the pre-existing sink is
discarded, every chunk commits with one output row per input row in input
order (placeholder rows included), and the header is written exactly once. -/

lemma chunksOf_flatten {α : Type _} : ∀ (n : ℕ) (l : List α), 0 < n →
    (chunksOf n l).flatten = l
  | _, [], _ => by rw [chunksOf]; rfl
  | 0, _ :: _, h => absurd h (by omega)
  | n + 1, a :: rest, _ => by
    rw [chunksOf]
    simp only [List.flatten_cons]
    rw [chunksOf_flatten (n + 1) ((a :: rest).drop (n + 1)) (by omega)]
    exact List.take_append_drop _ _
termination_by n l => l.length
decreasing_by
  simp only [List.length_drop, List.length_cons]
  omega

lemma csv_foldl_some (hdr : List Row → List String)
    (proc : List Row → List (List OutCell)) :
    ∀ (chunks : List (List Row)) (acc : List CSVLine),
      chunks.foldl (fun file chunk =>
          some (to_csv_append file (hdr chunk) (proc chunk))) (some acc) =
        some (acc ++ chunks.flatMap (fun c => (proc c).map CSVLine.data)) := by
  intro chunks
  induction chunks with
  | nil => intro acc; simp
  | cons c rest ih =>
    intro acc
    rw [List.foldl_cons]
    have hhead : to_csv_append (some acc) (hdr c) (proc c) =
        acc ++ (proc c).map CSVLine.data := rfl
    rw [hhead, ih]
    simp [List.flatMap_cons, List.append_assoc]

lemma zip_self_map {α β : Type _} (l : List α) (f : α → β) :
    l.zip (l.map f) = l.map (fun a => (a, f a)) := by
  induction l with
  | nil => rfl
  | cons a l ih => simp [ih]

lemma filterMap_data_flatMap (chunks : List (List Row))
    (proc : List Row → List (List OutCell)) :
    ((chunks.flatMap (fun c => (proc c).map CSVLine.data)).filterMap
      (fun ln => match ln with | .data c => some c | .header _ => none)) =
      chunks.flatMap proc := by
  induction chunks with
  | nil => rfl
  | cons c rest ih =>
    simp only [List.flatMap_cons, List.filterMap_append, ih]
    congr 1
    rw [List.filterMap_map]
    exact List.filterMap_some _

lemma forall2_flatten_flatMap {α β : Type _} (P : α → β → Prop)
    (proc : List α → List β) (h : ∀ c, List.Forall₂ P c (proc c)) :
    ∀ chunks : List (List α),
      List.Forall₂ P chunks.flatten (chunks.flatMap proc) := by
  intro chunks
  induction chunks with
  | nil => exact List.Forall₂.nil
  | cons c rest ih =>
    simp only [List.flatten_cons, List.flatMap_cons]
    exact List.rel_append (h c) ih

/-- With `os` and `tqdm` available — the imports the module is missing — the
streaming export returns a sink that is independent of its pre-existing
state, holds the header exactly once, and holds one committed data row per
input row, in input order, each beginning with the original cells of its
input row (encoded or placeholder cells follow). -/
lemma generate_fingerprint_dfs_to_csv_fixed_env (X_df : FPDF)
    (fingerprint_fn : String → Except String (List ℚ))
    (output_sink : Option (List CSVLine)) (smiles_col fp_column_name : String)
    (chunk_size : ℕ) (hsc : smiles_col ∈ X_df.cols) (hn : 0 < chunk_size)
    (hne : X_df.rows ≠ []) :
    ∃ lines,
      generate_fingerprint_dfs_to_csv (fingerprints_module_globals ++ ["os", "tqdm"])
          X_df fingerprint_fn output_sink smiles_col fp_column_name chunk_size =
        .ok (some lines) ∧
      (lines.filter (fun ln => match ln with
        | .header _ => true | .data _ => false)).length = 1 ∧
      List.Forall₂ (fun row cells => ∃ rest, cells = origCells row ++ rest)
        X_df.rows (lines.filterMap (fun ln => match ln with
          | .data c => some c | .header _ => none)) := by
  classical
  have hgen : generate_fingerprint_dfs_to_csv (fingerprints_module_globals ++ ["os", "tqdm"])
      X_df fingerprint_fn output_sink smiles_col fp_column_name chunk_size =
      .ok ((chunksOf chunk_size X_df.rows).foldl
        (fun file chunk =>
          some (to_csv_append file
            (chunkHeader X_df.cols fp_column_name
              (chunkWidth (chunkFingerprints fingerprint_fn smiles_col chunk)))
            (processChunk fingerprint_fn smiles_col chunk)))
        none) := by
    rw [generate_fingerprint_dfs_to_csv, if_neg (not_not_intro hsc),
      if_neg (by decide), if_neg (by decide), if_neg (by omega)]
  have hproc : ∀ c : List Row, processChunk fingerprint_fn smiles_col c =
      c.map (fun r => origCells r ++
        fpCells (chunkWidth (chunkFingerprints fingerprint_fn smiles_col c))
          (rowFingerprint fingerprint_fn smiles_col r)) := by
    intro c
    rw [processChunk, chunkFingerprints, zip_self_map, List.map_map]
    rfl
  have hforall : ∀ c : List Row,
      List.Forall₂ (fun row cells => ∃ rest, cells = origCells row ++ rest)
        c (processChunk fingerprint_fn smiles_col c) := by
    intro c
    rw [hproc]
    rw [List.forall₂_map_right_iff]
    exact List.forall₂_same.mpr (fun r _ => ⟨_, rfl⟩)
  cases hchunks : chunksOf chunk_size X_df.rows with
  | nil =>
    exact absurd (by rw [← chunksOf_flatten chunk_size X_df.rows hn, hchunks]; rfl) hne
  | cons c rest =>
    rw [hchunks] at hgen
    rw [List.foldl_cons] at hgen
    have hfirst : to_csv_append none
        (chunkHeader X_df.cols fp_column_name
          (chunkWidth (chunkFingerprints fingerprint_fn smiles_col c)))
        (processChunk fingerprint_fn smiles_col c) =
        CSVLine.header (chunkHeader X_df.cols fp_column_name
            (chunkWidth (chunkFingerprints fingerprint_fn smiles_col c))) ::
          (processChunk fingerprint_fn smiles_col c).map CSVLine.data := rfl
    rw [hfirst, csv_foldl_some, List.cons_append] at hgen
    refine ⟨_, hgen, ?_, ?_⟩
    · have hnil : (((processChunk fingerprint_fn smiles_col c).map CSVLine.data ++
          rest.flatMap (fun c2 =>
            (processChunk fingerprint_fn smiles_col c2).map CSVLine.data)).filter
          (fun ln => match ln with | .header _ => true | .data _ => false)) = [] := by
        rw [List.filter_eq_nil_iff]
        intro x hx
        rcases List.mem_append.mp hx with hx | hx
        · obtain ⟨cells, _, hcells⟩ := List.mem_map.mp hx
          rw [← hcells]
          simp
        · obtain ⟨c2, _, hx2⟩ := List.mem_flatMap.mp hx
          obtain ⟨cells, _, hcells⟩ := List.mem_map.mp hx2
          rw [← hcells]
          simp
      simp [List.filter_cons, hnil]
    · have hflat := chunksOf_flatten chunk_size X_df.rows hn
      rw [hchunks] at hflat
      have hdrop : ∀ (h0 : List String) (X : List CSVLine),
          ((CSVLine.header h0 :: X).filterMap (fun ln => match ln with
            | .data c2 => some c2 | .header _ => none)) =
          X.filterMap (fun ln => match ln with
            | .data c2 => some c2 | .header _ => none) := fun _ _ => rfl
      have hEq : (List.map CSVLine.data (processChunk fingerprint_fn smiles_col c) ++
          rest.flatMap (fun c2 =>
            List.map CSVLine.data (processChunk fingerprint_fn smiles_col c2))) =
          (c :: rest).flatMap (fun c2 =>
            List.map CSVLine.data (processChunk fingerprint_fn smiles_col c2)) := rfl
      rw [hdrop, hEq, filterMap_data_flatMap, ← hflat]
      exact forall2_flatten_flatMap _ _ hforall (c :: rest)

end CADDKit
